import Mathlib

/-!
Shallow embedding of the core game logic of Rusty-Rogues
(`src/game_objects/mod.rs`, `src/items/mod.rs`, `src/map/mod.rs`,
`src/ai/mod.rs`, `src/spell_effects/*`), with theorems about combat,
death, equipment, spell effects, AI and dungeon generation.

Modelling conventions:
* Rust `i32` values are modelled as `Int` (the game arithmetic stays far from
  overflow), `usize` indices as `Nat`.
* `Vec<T>` is `List T`; operations that can panic (`unwrap`, out-of-bounds
  indexing, `mut_two` with equal indices) return `Option`, `none` meaning the
  Rust code panics.
* Euclidean distances are compared through their squares: `f32::sqrt` of a
  small nonnegative integer is strictly monotone in it over board distances
  (squared distance below 2^14, where `f32` rounding is far finer than the
  gap between distinct square roots), so `sqrt d2 <= r` for an integer `r` is
  exactly `d2 <= r^2` and `sqrt d2a < sqrt d2b` is exactly `d2a < d2b`.
* `tcod` colors are opaque tags; the FOV oracle is a parameter
  `fov : Int → Int → Bool`, exactly as the spec treats it (a black box).
* Apostrophes inside Rust message literals are written with the `\x27`
  escape; the strings are otherwise verbatim.
-/

namespace RustyRogues

/-- The tcod colors used by the game logic, as opaque tags. -/
inductive Color where
  | white
  | red
  | orange
  | darkRed
  | green
  | lightGreen
  | darkerGreen
  | desaturatedGreen
  | lightYellow
  | lightViolet
  | violet
  | lightCyan
  | lightBlue
  | sky
  | darkerOrange
deriving DecidableEq, Repr

/-- `DeathCallback` from `game_objects/mod.rs`. -/
inductive DeathCallback where
  | Player
  | Monster
deriving DecidableEq, Repr

/-- `Fighter` from `game_objects/mod.rs`. -/
structure Fighter where
  base_max_hp : Int
  hp : Int
  base_defense : Int
  base_power : Int
  on_death : DeathCallback
  xp : Int
deriving DecidableEq, Repr

/-- `Ai` from `game_objects/mod.rs` / `ai/mod.rs`. -/
inductive Ai where
  | Basic
  | Confused (previous_ai : Ai) (num_turns : Int)
deriving DecidableEq, Repr

/-- `Item` from `game_objects/mod.rs`. -/
inductive Item where
  | Heal
  | Lightning
  | Confuse
  | Fireball
  | Sword
  | Shield
deriving DecidableEq, Repr

/-- `Slot` from `game_objects/mod.rs`. -/
inductive Slot where
  | Head
  | RightHand
  | LeftHand
deriving DecidableEq, Repr

/-- `Equipment` from `game_objects/mod.rs`. -/
structure Equipment where
  slot : Slot
  equipped : Bool
  power_bonus : Int
  defense_bonus : Int
  hp_bonus : Int
deriving DecidableEq, Repr

/-- `Tile` from `game_objects/mod.rs`. -/
structure Tile where
  blocked : Bool
  block_sight : Bool
  explored : Bool
deriving DecidableEq, Repr

/-- `Tile::empty()`. -/
def Tile.empty : Tile := { blocked := false, block_sight := false, explored := false }

/-- `Tile::wall()`. -/
def Tile.wall : Tile := { blocked := true, block_sight := true, explored := false }

/-- `type Map = Vec<Vec<Tile>>` (indexed `map[x][y]`). -/
abbrev GameMap := List (List Tile)

/-- `type Messages = Vec<(String, Color)>`. -/
abbrev Messages := List (String × Color)

/-- `MessageLog::add` pushes at the end of the log. -/
def Messages.add (log : Messages) (message : String) (color : Color) : Messages :=
  log ++ [(message, color)]

/-- `GameObject` from `game_objects/mod.rs`. -/
structure GameObject where
  x : Int
  y : Int
  char : Char
  color : Color
  name : String
  blocks : Bool
  alive : Bool
  fighter : Option Fighter
  ai : Option Ai
  item : Option Item
  always_visible : Bool
  level : Int
  equipment : Option Equipment
deriving DecidableEq, Repr

/-- `Game` from `game_objects/mod.rs`. -/
structure Game where
  map : GameMap
  log : Messages
  inventory : List GameObject
  dungeon_level : Nat
deriving DecidableEq, Repr

/-- Modelled from the spec: `constants::game::PLAYER`. The `constants::game`
module is not under `src/`; the spec fixes "index 0 is always the player" and
`main.rs` asserts `objects[GameConstants::PLAYER]` is `objects[0]`. -/
def PLAYER : Nat := 0

/-- `constants::player_base::NAME`. -/
def player_base_NAME : String := "Player"

/-- `UseResult` from `items/mod.rs`. -/
inductive UseResult where
  | UsedUp
  | UsedAndKept
  | Cancelled
deriving DecidableEq, Repr

/-- `GameObject::pos`. -/
def GameObject.pos (self : GameObject) : Int × Int := (self.x, self.y)

/-- `GameObject::set_pos`. -/
def GameObject.set_pos (self : GameObject) (x y : Int) : GameObject :=
  { self with x := x, y := y }

/-- Square of `GameObject::distance(x, y)` (see header on modelling `f32`
distances through their squares). -/
def GameObject.distance_sq (self : GameObject) (x y : Int) : Int :=
  (x - self.x) ^ 2 + (y - self.y) ^ 2

/-- Square of `GameObject::distance_to(other)`. -/
def GameObject.distance_to_sq (self other : GameObject) : Int :=
  (other.x - self.x) ^ 2 + (other.y - self.y) ^ 2

/-- `Display` for `Slot`. -/
def slot_display : Slot → String
  | Slot.LeftHand => "left hand"
  | Slot.RightHand => "right hand"
  | Slot.Head => "head"

/-- Stand-in for the derived `Debug` formatting of a `GameObject` (only ever
interpolated into log strings no claim inspects). -/
def debug_format (o : GameObject) : String := reprStr o

/-- `player_death` from `game_objects/mod.rs`. -/
def player_death (player : GameObject) (game : Game) : GameObject × Game :=
  let game := { game with log := game.log.add "You died!" Color.red }
  ({ player with
      char := '%'
      color := Color.darkRed
      name := "Corpse of player" }, game)

/-- `monster_death` from `game_objects/mod.rs`. The Rust code reads
`monster.fighter.unwrap().xp` for the log message; every call site (the death
branch of `take_damage`) has `fighter = some f`, where the value below is
`f.xp`. -/
def monster_death (monster : GameObject) (game : Game) : GameObject × Game :=
  let xp := (monster.fighter.map Fighter.xp).getD 0
  let n := monster.name
  let game :=
    { game with
        log := game.log.add s!"{n} is dead! You gain {xp} experience points." Color.orange }
  ({ monster with
      char := '%'
      color := Color.darkRed
      blocks := false
      fighter := none
      ai := none
      name := s!"Remains of {n}" }, game)

/-- `DeathCallback::callback`. -/
def DeathCallback.callback (self : DeathCallback) (object : GameObject) (game : Game) :
    GameObject × Game :=
  match self with
  | DeathCallback.Player => player_death object game
  | DeathCallback.Monster => monster_death object game

/-- `GameObject::take_damage`. Returns the mutated object, the mutated game,
and `Some(xp)` exactly when the (post-damage) fighter has `hp <= 0`. -/
def GameObject.take_damage (self : GameObject) (damage : Int) (game : Game) :
    GameObject × Game × Option Int :=
  let self :=
    match self.fighter with
    | some fighter =>
        if damage > 0 then
          { self with fighter := some { fighter with hp := fighter.hp - damage } }
        else self
    | none => self
  match self.fighter with
  | some fighter =>
      if fighter.hp ≤ 0 then
        let self := { self with alive := false }
        let (self, game) := fighter.on_death.callback self game
        (self, game, some fighter.xp)
      else (self, game, none)
  | none => (self, game, none)

/-- `GameObject::get_all_equipped`: only an entity named `"Player"` collects
the equipped items of the session inventory. -/
def GameObject.get_all_equipped (self : GameObject) (game : Game) : List Equipment :=
  if self.name = player_base_NAME then
    (game.inventory.filter
        (fun item => (item.equipment.map Equipment.equipped).getD false)).filterMap
      GameObject.equipment
  else []

/-- `GameObject::power`. -/
def GameObject.power (self : GameObject) (game : Game) : Int :=
  let base_power := (self.fighter.map Fighter.base_power).getD 0
  let bonus_power := ((self.get_all_equipped game).map Equipment.power_bonus).sum
  base_power + bonus_power

/-- `GameObject::defense`. -/
def GameObject.defense (self : GameObject) (game : Game) : Int :=
  let base_defense := (self.fighter.map Fighter.base_defense).getD 0
  let bonus_defense := ((self.get_all_equipped game).map Equipment.defense_bonus).sum
  base_defense + bonus_defense

/-- `GameObject::max_hp`. -/
def GameObject.max_hp (self : GameObject) (game : Game) : Int :=
  let base_max_hp := (self.fighter.map Fighter.base_max_hp).getD 0
  let bonus_max_hp := ((self.get_all_equipped game).map Equipment.hp_bonus).sum
  base_max_hp + bonus_max_hp

/-- The hit message logged by `GameObject::attack`. -/
def hit_msg (an tn : String) (damage : Int) : String :=
  s!"{an} attacks {tn} for {damage} hit points"

/-- The no-effect message logged by `GameObject::attack`. -/
def no_effect_msg (an tn : String) : String :=
  s!"{an} attacks {tn} but it has no effect!"

/-- `GameObject::attack`. `none` models the `unwrap` panic on an
attacker without a fighter when xp is awarded. -/
def GameObject.attack (self : GameObject) (target : GameObject) (game : Game) :
    Option (GameObject × GameObject × Game) :=
  let damage := self.power game - target.defense game
  if damage > 0 then
    let game :=
      { game with log := game.log.add (hit_msg self.name target.name damage) Color.white }
    let (target, game, xpOpt) := target.take_damage damage game
    match xpOpt with
    | some xp =>
        match self.fighter with
        | some f => some ({ self with fighter := some { f with xp := f.xp + xp } }, target, game)
        | none => none
    | none => some (self, target, game)
  else
    let game :=
      { game with log := game.log.add (no_effect_msg self.name target.name) Color.white }
    some (self, target, game)

/-- `GameObject::heal`: add `amount`, then clamp to `max_hp`. -/
def GameObject.heal (self : GameObject) (amount : Int) (game : Game) : GameObject :=
  let max_hp := self.max_hp game
  match self.fighter with
  | some fighter =>
      let hp := fighter.hp + amount
      let hp := if hp > max_hp then max_hp else hp
      { self with fighter := some { fighter with hp := hp } }
  | none => self

/-- `GameObject::equip`. -/
def GameObject.equip (self : GameObject) (log : Messages) : GameObject × Messages :=
  if self.item.isNone then
    let d := debug_format self
    (self, log.add s!"Can\x27t equip {d} because it\x27s not an Item" Color.red)
  else
    match self.equipment with
    | some equipment =>
        if !equipment.equipped then
          let n := self.name
          let sl := slot_display equipment.slot
          ({ self with equipment := some { equipment with equipped := true } },
            log.add s!"Equipped {n} on {sl}." Color.lightGreen)
        else (self, log)
    | none =>
        let d := debug_format self
        (self, log.add s!"Can\x27t equip {d} because it\x27s not an Equipment." Color.red)

/-- `GameObject::dequip`. -/
def GameObject.dequip (self : GameObject) (log : Messages) : GameObject × Messages :=
  if self.item.isNone then
    let d := debug_format self
    (self, log.add s!"Can\x27t dequip {d} because it\x27s not an Item." Color.red)
  else
    match self.equipment with
    | some equipment =>
        if equipment.equipped then
          let n := self.name
          let sl := slot_display equipment.slot
          ({ self with equipment := some { equipment with equipped := false } },
            log.add s!"Dequipped {n} from {sl}." Color.lightYellow)
        else (self, log)
    | none =>
        let d := debug_format self
        (self, log.add s!"Can\x27t dequip {d} because it\x27s not an Equipment." Color.red)

/-- `cast_heal` from `spell_effects/heal/mod.rs`, parametrized by the
`HEAL_AMOUNT` constant (the `constants::game` module is not under `src/`). -/
def cast_heal (heal_amount : Int) (objects : List GameObject) (game : Game) :
    Option (UseResult × List GameObject × Game) :=
  match objects[PLAYER]? with
  | none => none
  | some player =>
      match player.fighter with
      | some fighter =>
          if fighter.hp = player.max_hp game then
            some (UseResult.Cancelled, objects,
              { game with log := game.log.add "You are already at full health." Color.red })
          else
            let game :=
              { game with log := game.log.add "Your wounds start to close up!" Color.lightViolet }
            some (UseResult.UsedUp, objects.set PLAYER (player.heal heal_amount game), game)
      | none => some (UseResult.Cancelled, objects, game)

/-! ### Shared fixtures and helper lemmas -/

/-- An empty game session used by concrete evaluations. -/
def exGame0 : Game := { map := [], log := [], inventory := [], dungeon_level := 1 }

/-- The starting player of `new_game` with 1 hp left. -/
def exPlayer1 : GameObject :=
  { x := 0, y := 0, char := '@', color := Color.white, name := "Player"
    blocks := true, alive := true
    fighter := some { base_max_hp := 100, hp := 1, base_defense := 1, base_power := 2,
                      on_death := DeathCallback.Player, xp := 0 }
    ai := none, item := none, always_visible := false, level := 1, equipment := none }

/-- The fighter of a freshly placed Orc (`place_objects`). -/
def exOrcFighter : Fighter :=
  { base_max_hp := 20, hp := 20, base_defense := 0, base_power := 4,
    on_death := DeathCallback.Monster, xp := 35 }

/-- A freshly placed Orc. -/
def exOrc1 : GameObject :=
  { x := 1, y := 1, char := 'o', color := Color.desaturatedGreen, name := "Orc"
    blocks := true, alive := true, fighter := some exOrcFighter
    ai := some Ai.Basic, item := none, always_visible := false, level := 1, equipment := none }

/-- Damaging an object without a fighter does nothing at all. -/
theorem take_damage_of_no_fighter (o : GameObject) (d : Int) (g : Game)
    (h : o.fighter = none) : o.take_damage d g = (o, g, none) := by
  simp [GameObject.take_damage, h]

/-! ### C3 — the death transition -/

/-- C3 counterexample: the claim "for every entity with a Fighter …
thereafter no further application of take_damage to that entity changes its
hp or re-fires the death policy" fails for the player death policy.  The
player dies at hp −4; a second `take_damage 5` drives hp to −9 (hp changed)
and appends a second death message (the policy re-fired). -/
theorem player_take_damage_refires_death :
    ((exPlayer1.take_damage 5 exGame0).1.fighter.map Fighter.hp = some (-4)) ∧
    (((exPlayer1.take_damage 5 exGame0).1.take_damage 5 exGame0).1.fighter.map Fighter.hp
        = some (-9)) ∧
    ((exPlayer1.take_damage 5 exGame0).1.take_damage 5 exGame0).2.1.log ≠ exGame0.log := by
  decide

/-- C3 (amended): for an entity whose fighter has the Monster death policy,
the death transition fires exactly once — the first lethal `take_damage`
clears `alive`, `blocks`, `Fighter` and `AiState` (inert scenery) and yields
the xp; afterwards `take_damage` is a complete no-op on it.  (For the Player
policy the fighter is retained, so hp keeps dropping and the policy re-fires,
see `player_take_damage_refires_death`.) -/
theorem take_damage_monster_death_once (o : GameObject) (f : Fighter) (d : Int) (game : Game)
    (hf : o.fighter = some f) (hcb : f.on_death = DeathCallback.Monster)
    (hd : 0 < d) (hkill : f.hp ≤ d) :
    let r := o.take_damage d game
    r.1.alive = false ∧ r.1.fighter = none ∧ r.1.ai = none ∧ r.1.blocks = false ∧
    r.2.2 = some f.xp ∧
    ∀ (d2 : Int) (g2 : Game), r.1.take_damage d2 g2 = (r.1, g2, none) := by
  intro r
  have hr : r = o.take_damage d game := rfl
  have hdead : f.hp - d ≤ 0 := by omega
  simp only [GameObject.take_damage, hf, hd, if_true, gt_iff_lt, hdead, if_pos,
    DeathCallback.callback, hcb, monster_death] at hr
  refine ⟨?_, ?_, ?_, ?_, ?_, ?_⟩ <;>
    simp [hr, GameObject.take_damage]

/-- Witness for `take_damage_monster_death_once`: a 25-damage fireball hit on
a fresh Orc (20 hp). -/
theorem take_damage_monster_death_once_witness :
    exOrc1.fighter = some exOrcFighter ∧
    (let r := exOrc1.take_damage 25 exGame0
     r.1.alive = false ∧ r.1.fighter = none ∧ r.1.ai = none ∧ r.1.blocks = false ∧
     r.2.2 = some exOrcFighter.xp ∧
     ∀ (d2 : Int) (g2 : Game), r.1.take_damage d2 g2 = (r.1, g2, none)) :=
  ⟨rfl, take_damage_monster_death_once exOrc1 exOrcFighter 25 exGame0 rfl rfl
    (by decide) (by decide)⟩

/-! ### C4 — effective stat aggregation -/

/-- The sum of a bonus field over every equipped item of the session
inventory (spec-side formulation of the aggregation). -/
def equipped_bonus (game : Game) (f : Equipment → Int) : Int :=
  (game.inventory.map (fun it =>
    match it.equipment with
    | some e => if e.equipped then f e else 0
    | none => 0)).sum

/-- Summing a bonus over the filtered-then-unwrapped equipped items equals
the pointwise-if sum. -/
theorem sum_equipped_eq (l : List GameObject) (f : Equipment → Int) :
    (((l.filter (fun item => (item.equipment.map Equipment.equipped).getD false)).filterMap
        GameObject.equipment).map f).sum
      = (l.map (fun it =>
          match it.equipment with
          | some e => if e.equipped then f e else 0
          | none => 0)).sum := by
  induction l with
  | nil => simp
  | cons hd tl ih =>
      cases h : hd.equipment with
      | none => simp [List.filter_cons, h, ih]
      | some e =>
          by_cases he : e.equipped <;>
            simp [List.filter_cons, h, he, List.filterMap_cons, ih]

/-- C4 (amended): effective power, defense and max hp equal the base fighter
value plus the sum of the corresponding equipped-inventory bonuses **iff the
entity's `name` is the player base name `"Player"`** (not iff it is the
index-0 entity); every other entity gets the base value alone. -/
theorem stats_aggregate_by_player_name (o : GameObject) (game : Game) :
    o.power game = (o.fighter.map Fighter.base_power).getD 0 +
      (if o.name = player_base_NAME then equipped_bonus game Equipment.power_bonus else 0) ∧
    o.defense game = (o.fighter.map Fighter.base_defense).getD 0 +
      (if o.name = player_base_NAME then equipped_bonus game Equipment.defense_bonus else 0) ∧
    o.max_hp game = (o.fighter.map Fighter.base_max_hp).getD 0 +
      (if o.name = player_base_NAME then equipped_bonus game Equipment.hp_bonus else 0) := by
  by_cases h : o.name = player_base_NAME <;>
    simp [GameObject.power, GameObject.defense, GameObject.max_hp,
      GameObject.get_all_equipped, h, equipped_bonus, sum_equipped_eq]

/-- A sword with an equipped +3 power bonus, as placed by `place_objects`. -/
def exSword : GameObject :=
  { x := 0, y := 0, char := '/', color := Color.sky, name := "Sword"
    blocks := false, alive := false, fighter := none, ai := none
    item := some Item.Sword, always_visible := true, level := 1
    equipment := some { slot := Slot.RightHand, equipped := true, power_bonus := 3,
                        defense_bonus := 0, hp_bonus := 0 } }

/-- The player after `player_death` renamed it, with base power 5. -/
def exDeadPlayer : GameObject :=
  { x := 0, y := 0, char := '%', color := Color.darkRed, name := "Corpse of player"
    blocks := true, alive := false
    fighter := some { base_max_hp := 100, hp := -4, base_defense := 1, base_power := 5,
                      on_death := DeathCallback.Player, xp := 0 }
    ai := none, item := none, always_visible := false, level := 1, equipment := none }

/-- A session whose inventory holds the equipped +3 sword. -/
def exSession : Game := { map := [], log := [], inventory := [exSword], dungeon_level := 1 }

/-- C4 counterexample: the index-0 entity of a session (the player, renamed
"Corpse of player" by its death policy) does **not** aggregate the equipped
+3 power bonus: its effective power stays at base 5 instead of 5 + 3, because
the code keys aggregation on `name == "Player"`, not on the index. -/
theorem index0_entity_does_not_aggregate :
    [exDeadPlayer][PLAYER]? = some exDeadPlayer ∧
    exDeadPlayer.power exSession = 5 ∧ (5 : Int) ≠ 5 + 3 := by
  decide

/-! ### C7 — attack resolution -/

/-- C7: attack damage is `effective_power(attacker) − effective_defense(defender)`;
if positive it is subtracted from the defender's hp (with the hit message
logged); if the defender's hp then drops to ≤ 0 its death policy fires and
its xp is added to the attacker's fighter xp unconditionally; if the damage
is ≤ 0 a no-effect message is logged and the defender is unchanged. -/
theorem attack_resolution (a t : GameObject) (af tf : Fighter) (game : Game)
    (ha : a.fighter = some af) (ht : t.fighter = some tf) :
    (a.power game - t.defense game ≤ 0 →
      a.attack t game = some (a, t,
        { game with log := game.log.add (no_effect_msg a.name t.name) Color.white })) ∧
    (0 < a.power game - t.defense game →
      0 < tf.hp - (a.power game - t.defense game) →
      a.attack t game = some (a,
        { t with fighter := some { tf with hp := tf.hp - (a.power game - t.defense game) } },
        { game with
            log := game.log.add (hit_msg a.name t.name (a.power game - t.defense game))
              Color.white })) ∧
    (0 < a.power game - t.defense game →
      tf.hp - (a.power game - t.defense game) ≤ 0 →
      ∃ t2 g2, a.attack t game = some
        ({ a with fighter := some { af with xp := af.xp + tf.xp } }, t2, g2) ∧
        t2.alive = false ∧
        (tf.on_death = DeathCallback.Monster →
          t2.fighter = none ∧ t2.ai = none ∧ t2.blocks = false) ∧
        (tf.on_death = DeathCallback.Player →
          t2.fighter = some { tf with hp := tf.hp - (a.power game - t.defense game) })) := by
  refine ⟨?_, ?_, ?_⟩
  · intro hle
    simp [GameObject.attack, not_lt.mpr hle]
  · intro hpos hlive
    simp only [GameObject.attack, gt_iff_lt, hpos, if_true]
    simp only [GameObject.take_damage, ht, hpos, if_true]
    simp [not_le.mpr hlive]
  · intro hpos hdie
    have hdie2 : (tf.hp - (a.power game - t.defense game) ≤ 0) = True := by simp [hdie]
    cases hcb : tf.on_death with
    | Player =>
        simp only [GameObject.attack, gt_iff_lt, hpos, if_true, GameObject.take_damage, ht,
          hdie2, DeathCallback.callback, hcb, player_death, ha]
        refine ⟨_, _, rfl, ?_, ?_, ?_⟩ <;> simp [hcb]
    | Monster =>
        simp only [GameObject.attack, gt_iff_lt, hpos, if_true, GameObject.take_damage, ht,
          hdie2, DeathCallback.callback, hcb, monster_death, ha]
        refine ⟨_, _, rfl, ?_, ?_, ?_⟩ <;> simp [hcb]

/-- A troll-stat attacker (power 5 via fighter base) used by the witness. -/
def exAttacker : Fighter :=
  { base_max_hp := 30, hp := 30, base_defense := 2, base_power := 5,
    on_death := DeathCallback.Monster, xp := 100 }

/-- A defender fighter with defense 2 and 10 hp. -/
def exDefender : Fighter :=
  { base_max_hp := 20, hp := 10, base_defense := 2, base_power := 4,
    on_death := DeathCallback.Monster, xp := 35 }

/-- The attacker object: not named "Player", so power is its base 5. -/
def exAttackerObj : GameObject :=
  { x := 0, y := 0, char := 'T', color := Color.darkerGreen, name := "Troll"
    blocks := true, alive := true, fighter := some exAttacker
    ai := some Ai.Basic, item := none, always_visible := false, level := 1, equipment := none }

/-- The defender object (defense 2, hp 10). -/
def exDefenderObj : GameObject :=
  { x := 1, y := 0, char := 'o', color := Color.desaturatedGreen, name := "Orc"
    blocks := true, alive := true, fighter := some exDefender
    ai := some Ai.Basic, item := none, always_visible := false, level := 1, equipment := none }

/-- Witness for `attack_resolution`: power 5 vs defense 2 gives damage 3, the
spec's own example. -/
theorem attack_resolution_witness :
    exAttackerObj.fighter = some exAttacker ∧ exDefenderObj.fighter = some exDefender ∧
    ((exAttackerObj.power exGame0 - exDefenderObj.defense exGame0 ≤ 0 →
      exAttackerObj.attack exDefenderObj exGame0 = some (exAttackerObj, exDefenderObj,
        { exGame0 with
            log := exGame0.log.add (no_effect_msg exAttackerObj.name exDefenderObj.name)
              Color.white })) ∧
    (0 < exAttackerObj.power exGame0 - exDefenderObj.defense exGame0 →
      0 < exDefender.hp - (exAttackerObj.power exGame0 - exDefenderObj.defense exGame0) →
      exAttackerObj.attack exDefenderObj exGame0 = some (exAttackerObj,
        { exDefenderObj with fighter := some { exDefender with
            hp := exDefender.hp - (exAttackerObj.power exGame0 - exDefenderObj.defense exGame0) } },
        { exGame0 with
            log := exGame0.log.add (hit_msg exAttackerObj.name exDefenderObj.name
                (exAttackerObj.power exGame0 - exDefenderObj.defense exGame0))
              Color.white })) ∧
    (0 < exAttackerObj.power exGame0 - exDefenderObj.defense exGame0 →
      exDefender.hp - (exAttackerObj.power exGame0 - exDefenderObj.defense exGame0) ≤ 0 →
      ∃ t2 g2, exAttackerObj.attack exDefenderObj exGame0 = some
        ({ exAttackerObj with fighter := some { exAttacker with
            xp := exAttacker.xp + exDefender.xp } }, t2, g2) ∧
        t2.alive = false ∧
        (exDefender.on_death = DeathCallback.Monster →
          t2.fighter = none ∧ t2.ai = none ∧ t2.blocks = false) ∧
        (exDefender.on_death = DeathCallback.Player →
          t2.fighter = some { exDefender with
            hp := exDefender.hp - (exAttackerObj.power exGame0 - exDefenderObj.defense exGame0) }))) :=
  ⟨rfl, rfl, attack_resolution exAttackerObj exDefenderObj exAttacker exDefender exGame0 rfl rfl⟩

/-! ### C8 — heal -/

/-- C8: `cast_heal` cancels (leaving the objects untouched) exactly when the
player's hp equals its effective max hp; otherwise it heals the fixed amount
clamped to effective max hp and reports `UsedUp`; and after any heal on any
entity hp never exceeds effective max hp. -/
theorem cast_heal_spec (heal_amount : Int) (objects : List GameObject) (game : Game)
    (player : GameObject) (pf : Fighter)
    (h0 : objects[PLAYER]? = some player) (hf : player.fighter = some pf) :
    (pf.hp = player.max_hp game →
      cast_heal heal_amount objects game = some (UseResult.Cancelled, objects,
        { game with log := game.log.add "You are already at full health." Color.red })) ∧
    (pf.hp ≠ player.max_hp game →
      ∃ p2, cast_heal heal_amount objects game = some (UseResult.UsedUp,
          objects.set PLAYER p2,
          { game with log := game.log.add "Your wounds start to close up!" Color.lightViolet }) ∧
        p2.fighter = some { pf with hp :=
          if pf.hp + heal_amount > player.max_hp game then player.max_hp game
          else pf.hp + heal_amount }) ∧
    (∀ (o : GameObject) (amt : Int) (g : Game) (f2 : Fighter),
      (o.heal amt g).fighter = some f2 → f2.hp ≤ o.max_hp g) := by
  refine ⟨?_, ?_, ?_⟩
  · intro heq
    simp [cast_heal, h0, hf, heq]
  · intro hne
    refine ⟨player.heal heal_amount
      { game with log := game.log.add "Your wounds start to close up!" Color.lightViolet }, ?_, ?_⟩
    · simp [cast_heal, h0, hf, hne]
    · have hmax : player.max_hp
          { game with log := game.log.add "Your wounds start to close up!" Color.lightViolet }
          = player.max_hp game := rfl
      simp [GameObject.heal, hf, hmax]
  · intro o amt g f2 hres
    cases hof : o.fighter with
    | none => simp [GameObject.heal, hof] at hres
    | some f =>
        simp only [GameObject.heal, hof] at hres
        by_cases hclamp : f.hp + amt > o.max_hp g
        · simp only [hclamp, if_true] at hres
          cases hres
          simp
        · simp only [hclamp, if_false] at hres
          cases hres
          simpa using not_lt.mp hclamp

/-- A player at 50/100 hp for the heal witness. -/
def exPlayerHalf : GameObject :=
  { x := 0, y := 0, char := '@', color := Color.white, name := "Player"
    blocks := true, alive := true
    fighter := some { base_max_hp := 100, hp := 50, base_defense := 1, base_power := 2,
                      on_death := DeathCallback.Player, xp := 0 }
    ai := none, item := none, always_visible := false, level := 1, equipment := none }

/-- Witness for `cast_heal_spec`: the half-hp player, heal amount 40. -/
theorem cast_heal_spec_witness :
    [exPlayerHalf][PLAYER]? = some exPlayerHalf ∧
    (let pf : Fighter := { base_max_hp := 100, hp := 50, base_defense := 1, base_power := 2,
                           on_death := DeathCallback.Player, xp := 0 }
     (pf.hp = exPlayerHalf.max_hp exGame0 →
      cast_heal 40 [exPlayerHalf] exGame0 = some (UseResult.Cancelled, [exPlayerHalf],
        { exGame0 with log := exGame0.log.add "You are already at full health." Color.red })) ∧
    (pf.hp ≠ exPlayerHalf.max_hp exGame0 →
      ∃ p2, cast_heal 40 [exPlayerHalf] exGame0 = some (UseResult.UsedUp,
          [exPlayerHalf].set PLAYER p2,
          { exGame0 with
              log := exGame0.log.add "Your wounds start to close up!" Color.lightViolet }) ∧
        p2.fighter = some { pf with hp :=
          if pf.hp + 40 > exPlayerHalf.max_hp exGame0 then exPlayerHalf.max_hp exGame0
          else pf.hp + 40 }) ∧
    (∀ (o : GameObject) (amt : Int) (g : Game) (f2 : Fighter),
      (o.heal amt g).fighter = some f2 → f2.hp ≤ o.max_hp g)) :=
  ⟨rfl, cast_heal_spec 40 [exPlayerHalf] exGame0 exPlayerHalf _ rfl rfl⟩

/-! ### Items (`items/mod.rs`): equipment toggling and pickup -/

/-- The predicate `e.equipped && e.slot == slot` applied through
`equipment.as_ref().map_or(false, …)`, shared by `get_equipped_in_slot`
and the slot invariant. -/
def is_equipped_in (o : GameObject) (s : Slot) : Bool :=
  (o.equipment.map (fun e => e.equipped && e.slot == s)).getD false

/-- The index scan of `get_equipped_in_slot`. -/
def find_equipped_from (slot : Slot) (inv : List GameObject) (idx : Nat) : Option Nat :=
  match inv with
  | [] => none
  | o :: rest =>
      if is_equipped_in o slot then some idx
      else find_equipped_from slot rest (idx + 1)

/-- `get_equipped_in_slot` from `items/mod.rs`: first inventory index whose
equipment is equipped in `slot`. -/
def get_equipped_in_slot (slot : Slot) (game : Game) : Option Nat :=
  find_equipped_from slot game.inventory 0

/-- `toggle_equipment` from `items/mod.rs`.  `none` models an out-of-bounds
inventory index panic. -/
def toggle_equipment (inventory_id : Nat) (game : Game) : Option (UseResult × Game) :=
  match game.inventory[inventory_id]? with
  | none => none
  | some it =>
      match it.equipment with
      | none => some (UseResult.Cancelled, game)
      | some equipment =>
          if equipment.equipped then
            let r := it.dequip game.log
            some (UseResult.UsedAndKept,
              { game with inventory := game.inventory.set inventory_id r.1, log := r.2 })
          else
            match get_equipped_in_slot equipment.slot game with
            | some old_id =>
                match game.inventory[old_id]? with
                | none => none
                | some oldit =>
                    let r := oldit.dequip game.log
                    let game :=
                      { game with inventory := game.inventory.set old_id r.1, log := r.2 }
                    match game.inventory[inventory_id]? with
                    | none => none
                    | some it2 =>
                        let r2 := it2.equip game.log
                        some (UseResult.UsedAndKept,
                          { game with
                              inventory := game.inventory.set inventory_id r2.1, log := r2.2 })
            | none =>
                match game.inventory[inventory_id]? with
                | none => none
                | some it2 =>
                    let r2 := it2.equip game.log
                    some (UseResult.UsedAndKept,
                      { game with
                          inventory := game.inventory.set inventory_id r2.1, log := r2.2 })

/-- `Vec::swap_remove(i)`: the removed element together with the list where
the last element took index `i`; `none` models the out-of-bounds panic. -/
def swap_remove (l : List GameObject) (i : Nat) : Option (GameObject × List GameObject) :=
  match l[i]?, l.getLast? with
  | some x, some last => some (x, (l.set i last).dropLast)
  | _, _ => none

/-- `pick_item_up` from `items/mod.rs`. -/
def pick_item_up (object_id : Nat) (objects : List GameObject) (game : Game) :
    Option (List GameObject × Game) :=
  if game.inventory.length ≥ 26 then
    match objects[object_id]? with
    | none => none
    | some o =>
        let n := o.name
        some (objects,
          { game with log := game.log.add s!"Your inventory is full, cannot pick up {n}" Color.red })
  else
    match swap_remove objects object_id with
    | none => none
    | some (item, objects2) =>
        let n := item.name
        let game := { game with log := game.log.add s!"You picked up a {n}!" Color.green }
        let index := game.inventory.length
        let slot := item.equipment.map Equipment.slot
        let game := { game with inventory := game.inventory ++ [item] }
        match slot with
        | some slot =>
            if (get_equipped_in_slot slot game).isNone then
              match game.inventory[index]? with
              | none => none
              | some it =>
                  let r := it.equip game.log
                  some (objects2,
                    { game with inventory := game.inventory.set index r.1, log := r.2 })
            else some (objects2, game)
        | none => some (objects2, game)

instance : Fintype Slot :=
  ⟨⟨{Slot.Head, Slot.RightHand, Slot.LeftHand}, by decide⟩, fun x => by cases x <;> decide⟩

/-- Number of inventory entries equipped in slot `s`. -/
def count_equipped (inv : List GameObject) (s : Slot) : Nat :=
  (inv.filter (fun o => is_equipped_in o s)).length

/-- C5 invariant: at most one equipped item per equipment slot. -/
def slot_invariant (inv : List GameObject) : Prop :=
  ∀ s : Slot, count_equipped inv s ≤ 1

instance (inv : List GameObject) : Decidable (slot_invariant inv) := by
  unfold slot_invariant
  infer_instance

/-- Point update of a list shifts a filter count by the two elements'
contributions. -/
theorem length_filter_set (l : List GameObject) (i : Nat) (x : GameObject)
    (p : GameObject → Bool) (h : i < l.length) :
    ((l.set i x).filter p).length + (if p l[i] then 1 else 0)
      = (l.filter p).length + (if p x then 1 else 0) := by
  rw [List.set_eq_take_cons_drop x h]
  conv_rhs => rw [← List.take_append_drop i l, ← List.getElem_cons_drop l i h]
  simp only [List.filter_append, List.filter_cons, List.length_append]
  by_cases hx : p x <;> by_cases hl : p l[i] <;> simp [hx, hl] <;> omega

/-- Appending one element shifts a filter count by its contribution. -/
theorem length_filter_concat (l : List GameObject) (x : GameObject) (p : GameObject → Bool) :
    ((l ++ [x]).filter p).length = (l.filter p).length + (if p x then 1 else 0) := by
  by_cases hx : p x <;> simp [List.filter_append, List.filter_cons, hx]

/-- The scan misses exactly when no entry is equipped in the slot. -/
theorem find_equipped_from_none (slot : Slot) (l : List GameObject) (idx : Nat) :
    find_equipped_from slot l idx = none ↔ ∀ o ∈ l, is_equipped_in o slot = false := by
  induction l generalizing idx with
  | nil => simp [find_equipped_from]
  | cons hd tl ih =>
      by_cases hh : is_equipped_in hd slot <;> simp [find_equipped_from, hh, ih]

/-- A hit of the scan points at an entry equipped in the slot. -/
theorem find_equipped_from_some (slot : Slot) (l : List GameObject) (idx j : Nat)
    (h : find_equipped_from slot l idx = some j) :
    ∃ k, ∃ hk : k < l.length, idx + k = j ∧ is_equipped_in l[k] slot = true := by
  induction l generalizing idx with
  | nil => simp [find_equipped_from] at h
  | cons hd tl ih =>
      by_cases hh : is_equipped_in hd slot
      · refine ⟨0, by simp, ?_, by simpa using hh⟩
        simp [find_equipped_from, hh] at h
        omega
      · simp only [find_equipped_from, hh, if_false, Bool.false_eq_true] at h
        obtain ⟨k, hk, hkj, hkq⟩ := ih (idx + 1) h
        exact ⟨k + 1, by simpa using Nat.succ_lt_succ hk, by omega, by simpa using hkq⟩

/-- Zero equipped count means every entry is unequipped in the slot. -/
theorem count_equipped_eq_zero (inv : List GameObject) (s : Slot) :
    count_equipped inv s = 0 ↔ ∀ o ∈ inv, is_equipped_in o s = false := by
  simp [count_equipped, List.length_eq_zero, List.filter_eq_nil_iff]

/-- An entry equipped in the slot makes the count positive. -/
theorem count_equipped_pos (inv : List GameObject) (s : Slot) (k : Nat)
    (hk : k < inv.length) (h : is_equipped_in inv[k] s = true) :
    1 ≤ count_equipped inv s := by
  have hmem : inv[k] ∈ inv.filter (fun o => is_equipped_in o s) :=
    List.mem_filter.mpr ⟨List.getElem_mem hk, h⟩
  exact List.length_pos.mpr (List.ne_nil_of_mem hmem)

/-- `dequip` on an item-bearing equipped equipment clears the flag. -/
theorem dequip_eq (o : GameObject) (log : Messages) (e : Equipment)
    (hi : o.item.isSome) (he : o.equipment = some e) (hq : e.equipped = true) :
    (o.dequip log).1 = { o with equipment := some { e with equipped := false } } := by
  obtain ⟨v, hv⟩ := Option.isSome_iff_exists.mp hi
  simp [GameObject.dequip, hv, he, hq]

/-- `equip` on an item-bearing unequipped equipment sets the flag. -/
theorem equip_eq (o : GameObject) (log : Messages) (e : Equipment)
    (hi : o.item.isSome) (he : o.equipment = some e) (hq : e.equipped = false) :
    (o.equip log).1 = { o with equipment := some { e with equipped := true } } := by
  obtain ⟨v, hv⟩ := Option.isSome_iff_exists.mp hi
  simp [GameObject.equip, hv, he, hq]

/-- `equip` either leaves the object alone or sets the equipped flag of its
equipment. -/
theorem equip_cases (o : GameObject) (log : Messages) :
    (o.equip log).1 = o ∨ ∃ e, o.equipment = some e ∧ e.equipped = false ∧
      (o.equip log).1 = { o with equipment := some { e with equipped := true } } := by
  by_cases hi : o.item.isNone
  · left
    simp [GameObject.equip, hi]
  · cases he : o.equipment with
    | none => left; simp [GameObject.equip, hi, he]
    | some e =>
        by_cases hq : e.equipped
        · left
          simp [GameObject.equip, hi, he, hq]
        · right
          exact ⟨e, rfl, by simpa using hq, by simp [GameObject.equip, hi, he, hq]⟩

/-- An object whose equipped flag was cleared counts in no slot. -/
theorem is_equipped_in_unequip (o : GameObject) (e : Equipment) (s : Slot) :
    is_equipped_in { o with equipment := some { e with equipped := false } } s = false := by
  simp [is_equipped_in]

/-- An object whose equipped flag was set counts exactly in its own slot. -/
theorem is_equipped_in_equip (o : GameObject) (e : Equipment) (s : Slot) :
    is_equipped_in { o with equipment := some { e with equipped := true } } s
      = (e.slot == s) := by
  simp [is_equipped_in]

/-- An object with equipment whose flag is clear counts in no slot. -/
theorem is_equipped_in_of_unequipped (o : GameObject) (e : Equipment) (s : Slot)
    (he : o.equipment = some e) (hq : e.equipped = false) : is_equipped_in o s = false := by
  simp [is_equipped_in, he, hq]

/-- An object whose equipped flag reads false counts in no slot. -/
theorem is_equipped_in_of_flag (o : GameObject) (s : Slot)
    (h : (o.equipment.map Equipment.equipped).getD false = false) :
    is_equipped_in o s = false := by
  cases he : o.equipment with
  | none => simp [is_equipped_in, he]
  | some e =>
      rw [he] at h
      simp only [Option.map_some', Option.getD_some] at h
      simp [is_equipped_in, he, h]

/-- Counting in a slot certifies an equipped equipment of that slot. -/
theorem is_equipped_in_true_elim (o : GameObject) (s : Slot) (h : is_equipped_in o s = true) :
    ∃ e, o.equipment = some e ∧ e.equipped = true ∧ e.slot = s := by
  cases he : o.equipment with
  | none => simp [is_equipped_in, he] at h
  | some e =>
      simp only [is_equipped_in, he, Option.map_some', Option.getD_some, Bool.and_eq_true,
        beq_iff_eq] at h
      exact ⟨e, rfl, h.1, h.2⟩

/-- `toggle_equipment` preserves the one-equipped-per-slot invariant, reports
`UsedAndKept` whenever the chosen inventory entry has an equipment, and after
toggling an unequipped item-bearing equipment its slot holds exactly one
equipped occupant — the toggled item itself. -/
theorem toggle_equipment_preserves (game : Game)
    (hwf : ∀ o ∈ game.inventory, o.equipment.isSome = true → o.item.isSome = true)
    (hinv : slot_invariant game.inventory)
    (inventory_id : Nat) (res : UseResult) (g2 : Game)
    (htog : toggle_equipment inventory_id game = some (res, g2)) :
    slot_invariant g2.inventory ∧
      (∀ it, game.inventory[inventory_id]? = some it → it.equipment.isSome = true →
        res = UseResult.UsedAndKept) ∧
      (∀ it e, game.inventory[inventory_id]? = some it → it.equipment = some e →
        e.equipped = false →
        count_equipped g2.inventory e.slot = 1 ∧
          (g2.inventory[inventory_id]?).bind GameObject.equipment
            = some { e with equipped := true }) := by
  cases hit : game.inventory[inventory_id]? with
  | none => simp [toggle_equipment, hit] at htog
  | some it =>
    obtain ⟨hlt, hgetit⟩ := List.getElem?_eq_some.mp hit
    have hmem : it ∈ game.inventory := hgetit ▸ List.getElem_mem hlt
    cases heq : it.equipment with
    | none =>
        simp only [toggle_equipment, hit, heq, Option.some.injEq, Prod.mk.injEq] at htog
        obtain ⟨hres, hg2⟩ := htog
        subst hres
        subst hg2
        refine ⟨hinv, ?_, ?_⟩
        · intro it2 hit2 hsome
          cases hit2
          rw [heq] at hsome
          simp at hsome
        · intro it2 e hit2 hit2e _
          cases hit2
          rw [heq] at hit2e
          cases hit2e
    | some e =>
        have hitem : it.item.isSome = true := hwf it hmem (by simp [heq])
        by_cases hq : e.equipped
        · have hq2 : e.equipped = true := hq
          have hdq := dequip_eq it game.log e hitem heq hq2
          obtain ⟨d1, hd1⟩ : ∃ d1, (it.dequip game.log).1 = d1 := ⟨_, rfl⟩
          have hd1f : ∀ s, is_equipped_in d1 s = false := fun s => by
            rw [← hd1, hdq]
            exact is_equipped_in_unequip it e s
          simp only [toggle_equipment, hit, heq, hq2, if_true, Option.some.injEq,
            Prod.mk.injEq] at htog
          obtain ⟨hres, hg2⟩ := htog
          subst hres
          subst hg2
          refine ⟨?_, fun _ _ _ => rfl, ?_⟩
          · intro s
            show count_equipped (game.inventory.set inventory_id ((it.dequip game.log).1)) s ≤ 1
            rw [hd1]
            have hc := length_filter_set game.inventory inventory_id d1
              (fun o => is_equipped_in o s) hlt
            rw [hgetit] at hc
            simp only [hd1f, Bool.false_eq_true, if_false, add_zero, count_equipped] at hc
            have hs := hinv s
            unfold count_equipped at hs ⊢
            generalize (if is_equipped_in it s = true then 1 else 0) = c at hc
            omega
          · intro it2 e2 hit2 hit2e hit2q
            cases hit2
            rw [heq] at hit2e
            cases hit2e
            rw [hq2] at hit2q
            cases hit2q
        · have hq2 : e.equipped = false := by simpa using hq
          have hitne : ∀ s, is_equipped_in it s = false := fun s =>
            is_equipped_in_of_unequipped it e s heq hq2
          cases hfind : get_equipped_in_slot e.slot game with
          | some j =>
              obtain ⟨k, hk, hkj, hkq⟩ :=
                find_equipped_from_some e.slot game.inventory 0 j hfind
              have hjk : k = j := by omega
              subst hjk
              have hjget : game.inventory[k]? = some (game.inventory[k]) :=
                List.getElem?_eq_getElem hk
              have hjne : k ≠ inventory_id := by
                intro hcontra
                subst hcontra
                rw [hgetit, hitne e.slot] at hkq
                cases hkq
              obtain ⟨e2, he2, hq3, hs2⟩ := is_equipped_in_true_elim _ _ hkq
              have hjitem : (game.inventory[k]).item.isSome = true :=
                hwf _ (List.getElem_mem hk) (by simp [he2])
              have hdq2 := dequip_eq (game.inventory[k]) game.log e2 hjitem he2 hq3
              obtain ⟨d1, hd1⟩ : ∃ d1, ((game.inventory[k]).dequip game.log).1 = d1 := ⟨_, rfl⟩
              have hd1f : ∀ s, is_equipped_in d1 s = false := fun s => by
                rw [← hd1, hdq2]
                exact is_equipped_in_unequip _ e2 s
              have heqp := equip_eq it (((game.inventory[k]).dequip game.log).2) e hitem heq hq2
              obtain ⟨q1, hq1⟩ :
                  ∃ q1, (it.equip (((game.inventory[k]).dequip game.log).2)).1 = q1 := ⟨_, rfl⟩
              have hq1f : ∀ s, is_equipped_in q1 s = (e.slot == s) := fun s => by
                rw [← hq1, heqp]
                exact is_equipped_in_equip it e s
              have hq1e : q1.equipment = some { e with equipped := true } := by
                rw [← hq1, heqp]
              have hit1 : (game.inventory.set k d1)[inventory_id]? = some it := by
                rw [List.getElem?_set_ne hjne]
                exact hit
              obtain ⟨hlt2, hget2⟩ := List.getElem?_eq_some.mp hit1
              simp only [toggle_equipment, hit, heq, hq2, Bool.false_eq_true, if_false,
                hfind, hjget, hd1, hit1, hq1, Option.some.injEq, Prod.mk.injEq] at htog
              obtain ⟨hres, hg2⟩ := htog
              subst hres
              subst hg2
              have hcount : ∀ s, count_equipped ((game.inventory.set k d1).set inventory_id q1) s
                  + (if is_equipped_in it s then 1 else 0)
                  = count_equipped (game.inventory.set k d1) s
                  + (if e.slot == s then 1 else 0) := by
                intro s
                have hc2 := length_filter_set (game.inventory.set k d1) inventory_id q1
                  (fun o => is_equipped_in o s) hlt2
                rw [hget2] at hc2
                simpa only [hq1f, count_equipped] using hc2
              have hcount1 : ∀ s, count_equipped (game.inventory.set k d1) s
                  + (if is_equipped_in (game.inventory[k]) s then 1 else 0)
                  = count_equipped game.inventory s := by
                intro s
                have hc1 := length_filter_set game.inventory k d1
                  (fun o => is_equipped_in o s) hk
                simpa only [hd1f, Bool.false_eq_true, if_false, add_zero,
                  count_equipped] using hc1
              refine ⟨?_, fun _ _ _ => rfl, ?_⟩
              · intro s
                show count_equipped ((game.inventory.set k d1).set inventory_id q1) s ≤ 1
                have h2 := hcount s
                have h1 := hcount1 s
                have hs := hinv s
                rw [hitne s] at h2
                by_cases hss : e.slot = s
                · subst hss
                  rw [hkq] at h1
                  simp only [beq_self_eq_true, if_true, Bool.false_eq_true, if_false,
                    add_zero] at h2 h1
                  omega
                · rw [beq_eq_false_iff_ne.mpr hss] at h2
                  simp only [Bool.false_eq_true, if_false, add_zero] at h2
                  generalize (if is_equipped_in (game.inventory[k]) s = true then 1 else 0)
                    = c at h1
                  omega
              · intro it2 e2g hit2 hit2e _
                cases hit2
                rw [heq] at hit2e
                cases hit2e
                constructor
                · show count_equipped ((game.inventory.set k d1).set inventory_id q1) e.slot = 1
                  have h2 := hcount e.slot
                  have h1 := hcount1 e.slot
                  have hs := hinv e.slot
                  rw [hitne e.slot] at h2
                  rw [hkq] at h1
                  simp only [beq_self_eq_true, if_true, Bool.false_eq_true, if_false,
                    add_zero] at h2 h1
                  omega
                · show ((game.inventory.set k d1).set inventory_id q1)[inventory_id]?.bind
                      GameObject.equipment = some { e with equipped := true }
                  rw [List.getElem?_set_self (by simpa using hlt)]
                  simp [hq1e]
          | none =>
              have hzero : count_equipped game.inventory e.slot = 0 :=
                (count_equipped_eq_zero _ _).mpr ((find_equipped_from_none _ _ _).mp hfind)
              have heqp := equip_eq it game.log e hitem heq hq2
              obtain ⟨q1, hq1⟩ : ∃ q1, (it.equip game.log).1 = q1 := ⟨_, rfl⟩
              have hq1f : ∀ s, is_equipped_in q1 s = (e.slot == s) := fun s => by
                rw [← hq1, heqp]
                exact is_equipped_in_equip it e s
              have hq1e : q1.equipment = some { e with equipped := true } := by
                rw [← hq1, heqp]
              simp only [toggle_equipment, hit, heq, hq2, Bool.false_eq_true, if_false,
                hfind, hq1, Option.some.injEq, Prod.mk.injEq] at htog
              obtain ⟨hres, hg2⟩ := htog
              subst hres
              subst hg2
              have hcount : ∀ s, count_equipped (game.inventory.set inventory_id q1) s
                  + (if is_equipped_in it s then 1 else 0)
                  = count_equipped game.inventory s + (if e.slot == s then 1 else 0) := by
                intro s
                have hc := length_filter_set game.inventory inventory_id q1
                  (fun o => is_equipped_in o s) hlt
                rw [hgetit] at hc
                simpa only [hq1f, count_equipped] using hc
              refine ⟨?_, fun _ _ _ => rfl, ?_⟩
              · intro s
                show count_equipped (game.inventory.set inventory_id q1) s ≤ 1
                have h2 := hcount s
                have hs := hinv s
                rw [hitne s] at h2
                by_cases hss : e.slot = s
                · subst hss
                  simp only [beq_self_eq_true, if_true, Bool.false_eq_true, if_false,
                    add_zero] at h2
                  omega
                · rw [beq_eq_false_iff_ne.mpr hss] at h2
                  simp only [Bool.false_eq_true, if_false, add_zero] at h2
                  omega
              · intro it2 e2g hit2 hit2e _
                cases hit2
                rw [heq] at hit2e
                cases hit2e
                constructor
                · show count_equipped (game.inventory.set inventory_id q1) e.slot = 1
                  have h2 := hcount e.slot
                  rw [hitne e.slot] at h2
                  simp only [beq_self_eq_true, if_true, Bool.false_eq_true, if_false,
                    add_zero, hzero] at h2
                  omega
                · show (game.inventory.set inventory_id q1)[inventory_id]?.bind
                      GameObject.equipment = some { e with equipped := true }
                  rw [List.getElem?_set_self (by simpa using hlt)]
                  simp [hq1e]

/-- `pick_item_up` preserves the one-equipped-per-slot invariant, provided
the picked object is not flagged equipped (true of every ground item: map
generation spawns gear unequipped and `drop_item` dequips before dropping). -/
theorem pick_item_up_preserves (game : Game) (hinv : slot_invariant game.inventory)
    (object_id : Nat) (objects objs2 : List GameObject) (g2 : Game) (picked : GameObject)
    (hpicked : objects[object_id]? = some picked)
    (hflag : (picked.equipment.map Equipment.equipped).getD false = false)
    (hpk : pick_item_up object_id objects game = some (objs2, g2)) :
    slot_invariant g2.inventory := by
  have hpunq : ∀ s, is_equipped_in picked s = false := fun s =>
    is_equipped_in_of_flag picked s hflag
  have hcat : ∀ s, count_equipped (game.inventory ++ [picked]) s
      = count_equipped game.inventory s := by
    intro s
    unfold count_equipped
    rw [length_filter_concat]
    simp [hpunq s]
  by_cases hfull : game.inventory.length ≥ 26
  · simp only [pick_item_up, hfull, if_true, hpicked, Option.some.injEq,
      Prod.mk.injEq] at hpk
    obtain ⟨h1, h2⟩ := hpk
    subst h2
    exact hinv
  · obtain ⟨hlt, _⟩ := List.getElem?_eq_some.mp hpicked
    have hne2 : objects ≠ [] := by
      intro h
      rw [h] at hlt
      simp at hlt
    have hlast := List.getLast?_eq_getLast objects hne2
    cases hpe : picked.equipment with
    | none =>
        simp only [pick_item_up, hfull, if_false, swap_remove, hpicked, hlast, hpe,
          Option.map_none', Option.some.injEq, Prod.mk.injEq] at hpk
        obtain ⟨h1, h2⟩ := hpk
        subst h2
        intro s
        show count_equipped (game.inventory ++ [picked]) s ≤ 1
        rw [hcat]
        exact hinv s
    | some e0 =>
        cases hfind : find_equipped_from e0.slot (game.inventory ++ [picked]) 0 with
        | none =>
            have hidx : (game.inventory ++ [picked])[game.inventory.length]? = some picked :=
              List.getElem?_concat_length _ _
            obtain ⟨hlen1, hg⟩ := List.getElem?_eq_some.mp hidx
            have hzero : count_equipped (game.inventory ++ [picked]) e0.slot = 0 :=
              (count_equipped_eq_zero _ _).mpr ((find_equipped_from_none _ _ _).mp hfind)
            simp only [pick_item_up, hfull, if_false, swap_remove, hpicked, hlast, hpe,
              Option.map_some', get_equipped_in_slot, hfind, Option.isNone_none, if_true,
              hidx, Option.some.injEq, Prod.mk.injEq] at hpk
            obtain ⟨h1, h2⟩ := hpk
            subst h2
            intro s
            show count_equipped ((game.inventory ++ [picked]).set game.inventory.length
              ((picked.equip ((game.log.add
                s!"You picked up a {picked.name}!" Color.green))).1)) s ≤ 1
            have hc := length_filter_set (game.inventory ++ [picked]) game.inventory.length
              ((picked.equip ((game.log.add
                s!"You picked up a {picked.name}!" Color.green))).1)
              (fun o => is_equipped_in o s) hlen1
            rw [hg] at hc
            simp only [hpunq s, Bool.false_eq_true, if_false, add_zero] at hc
            rcases equip_cases picked ((game.log.add
                s!"You picked up a {picked.name}!" Color.green)) with hcase |
                ⟨e1, he1, hq1, hcase⟩
            · rw [hcase] at hc ⊢
              simp only [hpunq s, Bool.false_eq_true, if_false, add_zero] at hc
              have h3 := hcat s
              have h4 := hinv s
              unfold count_equipped at h3 h4 ⊢
              omega
            · rw [hpe] at he1
              cases he1
              rw [hcase] at hc ⊢
              simp only [is_equipped_in_equip] at hc
              by_cases hss : e0.slot = s
              · subst hss
                simp only [beq_self_eq_true, if_true] at hc
                have h4 := hzero
                unfold count_equipped at h4 ⊢
                omega
              · rw [beq_eq_false_iff_ne.mpr hss] at hc
                simp only [Bool.false_eq_true, if_false, add_zero] at hc
                have h3 := hcat s
                have h4 := hinv s
                unfold count_equipped at h3 h4 ⊢
                omega
        | some j =>
            simp only [pick_item_up, hfull, if_false, swap_remove, hpicked, hlast, hpe,
              Option.map_some', get_equipped_in_slot, hfind, Option.isNone_some,
              Bool.false_eq_true, if_false, Option.some.injEq, Prod.mk.injEq] at hpk
            obtain ⟨h1, h2⟩ := hpk
            subst h2
            intro s
            show count_equipped (game.inventory ++ [picked]) s ≤ 1
            rw [hcat]
            exact hinv s

/-! ### C5 — at most one equipped item per slot -/

/-- C5: from any reachable inventory (every equipment-bearing entry is an
item, ground items are not flagged equipped) satisfying the
one-equipped-per-slot invariant, `toggle_equipment` and `pick_item_up`
preserve the invariant; `toggle_equipment` reports `UsedAndKept` whenever the
entry has an equipment, and toggling an unequipped item leaves its slot with
exactly one equipped occupant (the item itself), having dequipped any prior
occupant; `pick_item_up` auto-equips only into an empty slot. -/
theorem one_equipped_per_slot (game : Game)
    (hwf : ∀ o ∈ game.inventory, o.equipment.isSome = true → o.item.isSome = true)
    (hinv : slot_invariant game.inventory) :
    (∀ (inventory_id : Nat) (res : UseResult) (g2 : Game),
        toggle_equipment inventory_id game = some (res, g2) →
        slot_invariant g2.inventory ∧
          (∀ it, game.inventory[inventory_id]? = some it → it.equipment.isSome = true →
            res = UseResult.UsedAndKept) ∧
          (∀ it e, game.inventory[inventory_id]? = some it → it.equipment = some e →
            e.equipped = false →
            count_equipped g2.inventory e.slot = 1 ∧
              (g2.inventory[inventory_id]?).bind GameObject.equipment
                = some { e with equipped := true })) ∧
    (∀ (object_id : Nat) (objects objs2 : List GameObject) (g2 : Game)
        (picked : GameObject),
        objects[object_id]? = some picked →
        (picked.equipment.map Equipment.equipped).getD false = false →
        pick_item_up object_id objects game = some (objs2, g2) →
        slot_invariant g2.inventory) :=
  ⟨fun iid res g2 h => toggle_equipment_preserves game hwf hinv iid res g2 h,
   fun oid objs objs2 g2 p h1 h2 h3 =>
     pick_item_up_preserves game hinv oid objs objs2 g2 p h1 h2 h3⟩

/-- The starting dagger of `new_game`: equipped in the left hand. -/
def exDagger : GameObject :=
  { x := 0, y := 0, char := '-', color := Color.sky, name := "Dagger"
    blocks := false, alive := false, fighter := none, ai := none
    item := some Item.Sword, always_visible := false, level := 1
    equipment := some { slot := Slot.LeftHand, equipped := true, power_bonus := 2,
                        defense_bonus := 0, hp_bonus := 0 } }

/-- An unequipped sword in the inventory. -/
def exSwordU : GameObject :=
  { x := 0, y := 0, char := '/', color := Color.sky, name := "Sword"
    blocks := false, alive := false, fighter := none, ai := none
    item := some Item.Sword, always_visible := true, level := 1
    equipment := some { slot := Slot.RightHand, equipped := false, power_bonus := 3,
                        defense_bonus := 0, hp_bonus := 0 } }

/-- A session whose inventory holds the equipped dagger and the unequipped
sword. -/
def exInvGame : Game :=
  { map := [], log := [], inventory := [exDagger, exSwordU], dungeon_level := 1 }

/-- Witness for `one_equipped_per_slot` at a concrete two-item inventory. -/
theorem one_equipped_per_slot_witness :
    (∀ o ∈ exInvGame.inventory, o.equipment.isSome = true → o.item.isSome = true) ∧
    slot_invariant exInvGame.inventory ∧
    ((∀ (inventory_id : Nat) (res : UseResult) (g2 : Game),
        toggle_equipment inventory_id exInvGame = some (res, g2) →
        slot_invariant g2.inventory ∧
          (∀ it, exInvGame.inventory[inventory_id]? = some it → it.equipment.isSome = true →
            res = UseResult.UsedAndKept) ∧
          (∀ it e, exInvGame.inventory[inventory_id]? = some it → it.equipment = some e →
            e.equipped = false →
            count_equipped g2.inventory e.slot = 1 ∧
              (g2.inventory[inventory_id]?).bind GameObject.equipment
                = some { e with equipped := true })) ∧
    (∀ (object_id : Nat) (objects objs2 : List GameObject) (g2 : Game)
        (picked : GameObject),
        objects[object_id]? = some picked →
        (picked.equipment.map Equipment.equipped).getD false = false →
        pick_item_up object_id objects exInvGame = some (objs2, g2) →
        slot_invariant g2.inventory)) :=
  ⟨by decide, by decide, one_equipped_per_slot exInvGame (by decide) (by decide)⟩

/-! ### C10 — pickup removes from the entity collection by swap-removal -/

/-- C10: a successful pickup (inventory below capacity 26, valid index)
swap-removes the picked object: the collection shrinks by one, the former
last object relocates to the picked index, every other object keeps its
index unchanged, and the inventory grows by one. -/
theorem pick_item_up_frame (object_id : Nat) (objects : List GameObject) (game : Game)
    (picked : GameObject) (hobj : objects[object_id]? = some picked)
    (hroom : game.inventory.length < 26) :
    ∃ objs2 g2, pick_item_up object_id objects game = some (objs2, g2) ∧
      objs2.length + 1 = objects.length ∧
      (∀ j, j < objects.length - 1 → j ≠ object_id → objs2[j]? = objects[j]?) ∧
      (object_id < objects.length - 1 → objs2[object_id]? = objects[objects.length - 1]?) ∧
      g2.inventory.length = game.inventory.length + 1 := by
  obtain ⟨hlt, hget⟩ := List.getElem?_eq_some.mp hobj
  have hne : objects ≠ [] := by
    intro h
    rw [h] at hlt
    simp at hlt
  have hlast := List.getLast?_eq_getLast objects hne
  have hfull : ¬game.inventory.length ≥ 26 := by omega
  have hlen : ((objects.set object_id (objects.getLast hne)).dropLast).length + 1
      = objects.length := by
    rw [List.length_dropLast, List.length_set]
    omega
  have hframe : ∀ j, j < objects.length - 1 → j ≠ object_id →
      ((objects.set object_id (objects.getLast hne)).dropLast)[j]? = objects[j]? := by
    intro j hj hjne
    rw [List.dropLast_eq_take, List.getElem?_take, List.length_set,
      if_pos hj, List.getElem?_set_ne (Ne.symm hjne)]
  have hreloc : object_id < objects.length - 1 →
      ((objects.set object_id (objects.getLast hne)).dropLast)[object_id]?
        = objects[objects.length - 1]? := by
    intro hoid
    rw [List.dropLast_eq_take, List.getElem?_take, List.length_set, if_pos hoid,
      List.getElem?_set_self hlt, ← List.getLast?_eq_getElem?, hlast]
  cases hpe : picked.equipment with
  | none =>
      refine ⟨(objects.set object_id (objects.getLast hne)).dropLast,
        { game with
            log := game.log.add s!"You picked up a {picked.name}!" Color.green
            inventory := game.inventory ++ [picked] },
        ?_, hlen, hframe, hreloc, by simp⟩
      simp [pick_item_up, hfull, swap_remove, hobj, hlast, hpe]
  | some e0 =>
      cases hfind : find_equipped_from e0.slot (game.inventory ++ [picked]) 0 with
      | none =>
          have hidx : (game.inventory ++ [picked])[game.inventory.length]? = some picked :=
            List.getElem?_concat_length _ _
          refine ⟨(objects.set object_id (objects.getLast hne)).dropLast,
            { game with
                log := (picked.equip
                  (game.log.add s!"You picked up a {picked.name}!" Color.green)).2
                inventory := (game.inventory ++ [picked]).set game.inventory.length
                  (picked.equip
                    (game.log.add s!"You picked up a {picked.name}!" Color.green)).1 },
            ?_, hlen, hframe, hreloc, by simp⟩
          simp [pick_item_up, hfull, swap_remove, hobj, hlast, hpe, get_equipped_in_slot,
            hfind, hidx]
      | some j =>
          refine ⟨(objects.set object_id (objects.getLast hne)).dropLast,
            { game with
                log := game.log.add s!"You picked up a {picked.name}!" Color.green
                inventory := game.inventory ++ [picked] },
            ?_, hlen, hframe, hreloc, by simp⟩
          simp [pick_item_up, hfull, swap_remove, hobj, hlast, hpe, get_equipped_in_slot,
            hfind]

/-- A healing potion lying on the floor. -/
def exPotion : GameObject :=
  { x := 2, y := 2, char := '!', color := Color.violet, name := "Healing Potion"
    blocks := false, alive := false, fighter := none, ai := none
    item := some Item.Heal, always_visible := true, level := 1, equipment := none }

/-- Witness for `pick_item_up_frame`: picking the potion at index 1 of a
three-object collection relocates the orc from the last index to index 1. -/
theorem pick_item_up_frame_witness :
    [exPlayer1, exPotion, exOrc1][1]? = some exPotion ∧ exGame0.inventory.length < 26 ∧
    (∃ objs2 g2, pick_item_up 1 [exPlayer1, exPotion, exOrc1] exGame0 = some (objs2, g2) ∧
      objs2.length + 1 = [exPlayer1, exPotion, exOrc1].length ∧
      (∀ j, j < [exPlayer1, exPotion, exOrc1].length - 1 → j ≠ 1 →
        objs2[j]? = [exPlayer1, exPotion, exOrc1][j]?) ∧
      (1 < [exPlayer1, exPotion, exOrc1].length - 1 →
        objs2[1]? = [exPlayer1, exPotion, exOrc1][[exPlayer1, exPotion, exOrc1].length - 1]?) ∧
      g2.inventory.length = exGame0.inventory.length + 1) :=
  ⟨rfl, by decide, pick_item_up_frame 1 [exPlayer1, exPotion, exOrc1] exGame0 exPotion rfl
    (by decide)⟩

/-! ### Fireball (`spell_effects/fireball/mod.rs`, constants from
`constants::consumables::scrolls::fireball`) -/

/-- `fireball::RADIUS` (constants.rs). -/
def fireball_RADIUS : Int := 3

/-- `fireball::DAMAGE` (constants.rs). -/
def fireball_DAMAGE : Int := 25

/-- `fireball::INSTRUCTIONS` (constants.rs). -/
def fireball_INSTRUCTIONS : String :=
  "Left-click a target tile for the fireball, or right-click to cancel."

/-- `fireball::create_radius_message()`. -/
def fireball_radius_message : String :=
  s!"The fireball explodes, burning everything within {fireball_RADIUS} tiles!"

/-- `fireball::create_damage_message(name)`. -/
def fireball_damage_message (name : String) : String :=
  s!"The {name} gets burned for {fireball_DAMAGE} hit points."

/-- The damage loop of `cast_fireball`: iterates `objects` with its
enumeration index, damaging each fightered object within the radius
(`distance <= RADIUS` is squared-distance `<= RADIUS^2`, see header) and
overwriting (not accumulating) `xp_to_gain` with the xp of each non-player
kill. -/
def fireball_loop (x y : Int) (l : List GameObject) (idx : Nat) (game : Game)
    (xp_to_gain : Int) : List GameObject × Game × Int :=
  match l with
  | [] => ([], game, xp_to_gain)
  | o :: rest =>
      if o.distance_sq x y ≤ fireball_RADIUS ^ 2 ∧ o.fighter.isSome = true then
        let game := { game with
          log := game.log.add (fireball_damage_message o.name) Color.orange }
        let r := o.take_damage fireball_DAMAGE game
        let xp2 :=
          match r.2.2 with
          | some xp => if idx ≠ PLAYER then xp else xp_to_gain
          | none => xp_to_gain
        let r2 := fireball_loop x y rest (idx + 1) r.2.1 xp2
        (r.1 :: r2.1, r2.2.1, r2.2.2)
      else
        let r2 := fireball_loop x y rest (idx + 1) game xp_to_gain
        (o :: r2.1, r2.2.1, r2.2.2)

/-- `cast_fireball` after a target tile `(x, y)` was chosen (the interactive
`target_tile` loop is external input; cancellation before a tile is chosen
returns `Cancelled` without touching any entity). -/
def cast_fireball_at (x y : Int) (objects : List GameObject) (game : Game) :
    Option (UseResult × List GameObject × Game) :=
  let game := { game with log := game.log.add fireball_INSTRUCTIONS Color.lightCyan }
  let game := { game with log := game.log.add fireball_radius_message Color.orange }
  let r := fireball_loop x y objects 0 game 0
  match r.1[PLAYER]? with
  | none => none
  | some player =>
      match player.fighter with
      | none => none
      | some f =>
          some (UseResult.UsedUp,
            r.1.set PLAYER { player with fighter := some { f with xp := f.xp + r.2.2 } },
            r.2.1)

/-- Spec-side: the fireball hits `o` (fightered and within the radius). -/
def fb_hit (x y : Int) (o : GameObject) : Bool :=
  decide (o.distance_sq x y ≤ fireball_RADIUS ^ 2) && o.fighter.isSome

/-- Spec-side: the fireball splash kills `o`. -/
def fb_dies (x y : Int) (o : GameObject) : Bool :=
  fb_hit x y o && (o.fighter.map (fun f => decide (f.hp - fireball_DAMAGE ≤ 0))).getD false

/-- Spec-side: the per-object effect of one fireball splash — no fighter or
out of radius: untouched; hit and surviving: hp drops by the fixed damage;
hit and dying: the death policy is applied on top of the hp drop. -/
def fb_apply (x y : Int) (o : GameObject) : GameObject :=
  match o.fighter with
  | none => o
  | some f =>
      if o.distance_sq x y ≤ fireball_RADIUS ^ 2 then
        let f2 := { f with hp := f.hp - fireball_DAMAGE }
        if f2.hp ≤ 0 then
          match f.on_death with
          | DeathCallback.Player =>
              { o with
                  fighter := some f2
                  alive := false
                  char := '%'
                  color := Color.darkRed
                  name := "Corpse of player" }
          | DeathCallback.Monster =>
              { o with
                  alive := false
                  char := '%'
                  color := Color.darkRed
                  blocks := false
                  fighter := none
                  ai := none
                  name := s!"Remains of {o.name}" }
        else { o with fighter := some f2 }
      else o

/-- Spec-side: the xp the cast credits — the xp of the **last** (highest
index) non-player object killed by the splash, `0` if none. -/
def last_kill_xp (x y : Int) (objects : List GameObject) : Int :=
  (((objects.enum).filter (fun p => p.1 != PLAYER && fb_dies x y p.2)).getLast?).elim 0
    (fun p => (p.2.fighter.map Fighter.xp).getD 0)

/-- On a hit object, `take_damage` with the fireball damage realizes
`fb_apply`, and reports xp exactly when `fb_dies`. -/
theorem take_damage_fb (x y : Int) (o : GameObject) (g : Game)
    (hhit : fb_hit x y o = true) :
    (o.take_damage fireball_DAMAGE g).1 = fb_apply x y o ∧
    (o.take_damage fireball_DAMAGE g).2.2
      = (if fb_dies x y o then some ((o.fighter.map Fighter.xp).getD 0) else none) := by
  have hh := hhit
  rw [fb_hit, Bool.and_eq_true, decide_eq_true_eq] at hh
  obtain ⟨hdist, hf⟩ := hh
  obtain ⟨f, hfe⟩ := Option.isSome_iff_exists.mp hf
  by_cases hdie : f.hp - fireball_DAMAGE ≤ 0
  · have hdie2 : f.hp ≤ 25 := by
      rw [fireball_DAMAGE] at hdie
      omega
    cases hcb : f.on_death <;>
      simp [GameObject.take_damage, fb_apply, fb_dies, hhit, hfe, hdist, hdie, hdie2, hcb,
        DeathCallback.callback, player_death, monster_death, fireball_DAMAGE]
  · have hdie2 : ¬f.hp ≤ 25 := by
      rw [fireball_DAMAGE] at hdie
      omega
    simp [GameObject.take_damage, fb_apply, fb_dies, hhit, hfe, hdist, hdie, hdie2,
      fireball_DAMAGE]

/-- A missed object is untouched by `fb_apply`. -/
theorem fb_apply_not_hit (x y : Int) (o : GameObject) (h : fb_hit x y o = false) :
    fb_apply x y o = o := by
  rw [fb_hit, Bool.and_eq_false_iff] at h
  cases hfe : o.fighter with
  | none => simp [fb_apply, hfe]
  | some f =>
      rcases h with h | h
      · rw [decide_eq_false_iff_not] at h
        simp [fb_apply, hfe, h]
      · rw [hfe] at h
        simp at h

/-- The fireball loop maps `fb_apply` over the collection and leaves in
`xp_to_gain` the xp of the last non-player kill (the accumulator is
overwritten, not summed). -/
theorem fireball_loop_spec (x y : Int) (l : List GameObject) (idx : Nat) (game : Game)
    (xp0 : Int) :
    (fireball_loop x y l idx game xp0).1 = l.map (fb_apply x y) ∧
    (fireball_loop x y l idx game xp0).2.2
      = (((l.enumFrom idx).filter
            (fun p => p.1 != PLAYER && fb_dies x y p.2)).getLast?).elim
          xp0 (fun p => (p.2.fighter.map Fighter.xp).getD 0) := by
  induction l generalizing idx game xp0 with
  | nil => simp [fireball_loop, List.enumFrom]
  | cons o rest ih =>
      by_cases hhit : fb_hit x y o = true
      · have hh := hhit
        rw [fb_hit, Bool.and_eq_true, decide_eq_true_eq] at hh
        obtain ⟨hdist, hf⟩ := hh
        have htd := take_damage_fb x y o
          { game with log := game.log.add (fireball_damage_message o.name) Color.orange } hhit
        constructor
        · simp only [fireball_loop, if_pos (And.intro hdist hf)]
          rw [htd.1]
          exact congrArg (fb_apply x y o :: ·) (ih _ _ _).1
        · simp only [fireball_loop, if_pos (And.intro hdist hf)]
          rw [htd.2]
          rw [(ih (idx + 1) _ _).2]
          rw [List.enumFrom_cons, List.filter_cons]
          by_cases hdies : fb_dies x y o = true
          · by_cases hpl : idx = PLAYER
            · simp only [hdies, if_true, hpl, bne_self_eq_false, Bool.false_and,
                Bool.false_eq_true, if_false]
              simp
            · have hbne : (idx != PLAYER) = true := by simpa using hpl
              simp only [hdies, hbne, Bool.true_and, if_true]
              cases hF : (List.enumFrom (idx + 1) rest).filter
                  (fun p => p.1 != PLAYER && fb_dies x y p.2) with
              | nil => simp [hpl]
              | cons p0 F2 =>
                  obtain ⟨z, hz⟩ := Option.isSome_iff_exists.mp
                    (List.getLast?_isSome.mpr (List.cons_ne_nil p0 F2))
                  simp [List.getLast?_cons_cons, hz]
          · have hfalse : ((idx != PLAYER) && fb_dies x y o) = false := by
              simp [hdies]
            simp [hfalse, hdies]
      · have hne : ¬(o.distance_sq x y ≤ fireball_RADIUS ^ 2 ∧ o.fighter.isSome = true) := by
          intro hcon
          rw [fb_hit, Bool.and_eq_true, decide_eq_true_eq] at hhit
          exact hhit hcon
        have hdies : fb_dies x y o = false := by
          rw [fb_dies]
          simp [Bool.eq_false_iff.mp (by simpa using hhit)]
        constructor
        · simp only [fireball_loop, if_neg hne, List.map_cons,
            fb_apply_not_hit x y o (by simpa using hhit)]
          exact congrArg (o :: ·) (ih _ _ _).1
        · simp only [fireball_loop, if_neg hne]
          rw [(ih (idx + 1) _ _).2]
          rw [List.enumFrom_cons, List.filter_cons]
          simp [hdies]

/-! ### C1 — fireball splash and xp credit -/

/-- C1 (amended): once a target tile is chosen, the fireball damages exactly
the fightered entities with squared distance ≤ 3² (the fixed 25 damage, with
the death transition where lethal, per `fb_apply`) and nothing else; the
player's xp then increases, once and only after the loop, by the xp of the
**last** (highest-index) non-player entity killed — the accumulator is
overwritten per kill, not summed. -/
theorem cast_fireball_at_spec (x y : Int) (objects : List GameObject) (game : Game)
    (player : GameObject) (pf : Fighter)
    (h0 : objects[PLAYER]? = some player) (hpf : player.fighter = some pf)
    (hpol : pf.on_death = DeathCallback.Player) :
    ∃ objs2 game2,
      cast_fireball_at x y objects game = some (UseResult.UsedUp, objs2, game2) ∧
      objs2.length = objects.length ∧
      (∀ j, j ≠ PLAYER → objs2[j]? = Option.map (fb_apply x y) objects[j]?) ∧
      objs2[PLAYER]? = some { fb_apply x y player with
        fighter := (fb_apply x y player).fighter.map
          (fun f => { f with xp := f.xp + last_kill_xp x y objects }) } := by
  have hlen0 : PLAYER < objects.length := (List.getElem?_eq_some.mp h0).1
  have hex : ∃ f2, (fb_apply x y player).fighter = some f2 := by
    unfold fb_apply
    rw [hpf]
    by_cases h1 : player.distance_sq x y ≤ fireball_RADIUS ^ 2
    · by_cases h2 : pf.hp - fireball_DAMAGE ≤ 0
      · exact ⟨{ pf with hp := pf.hp - fireball_DAMAGE }, by simp [h1, h2, hpol]⟩
      · exact ⟨{ pf with hp := pf.hp - fireball_DAMAGE }, by simp [h1, h2]⟩
    · exact ⟨pf, by simp [h1, hpf]⟩
  obtain ⟨f2, hf2⟩ := hex
  refine ⟨(objects.map (fb_apply x y)).set PLAYER
      { fb_apply x y player with
          fighter := some { f2 with xp := f2.xp + last_kill_xp x y objects } },
    (fireball_loop x y objects 0
      { game with
          log := (game.log.add fireball_INSTRUCTIONS Color.lightCyan).add
            fireball_radius_message Color.orange } 0).2.1,
    ?_, ?_, ?_, ?_⟩
  · simp only [cast_fireball_at, (fireball_loop_spec x y objects 0 _ 0).1,
      List.getElem?_map, h0, Option.map_some', hf2, (fireball_loop_spec x y objects 0 _ 0).2]
    rfl
  · simp
  · intro j hj
    rw [List.getElem?_set_ne (fun h => hj h.symm), List.getElem?_map]
  · rw [List.getElem?_set_self (by simpa using hlen0), hf2]
    rfl

/-- An orc at the blast center with 1 hp and 35 xp. -/
def exOrcLow : GameObject :=
  { x := 0, y := 0, char := 'o', color := Color.desaturatedGreen, name := "Orc"
    blocks := true, alive := true
    fighter := some { base_max_hp := 20, hp := 1, base_defense := 0, base_power := 4,
                      on_death := DeathCallback.Monster, xp := 35 }
    ai := some Ai.Basic, item := none, always_visible := false, level := 1, equipment := none }

/-- A troll at the blast center with 1 hp and 100 xp. -/
def exTrollLow : GameObject :=
  { x := 0, y := 0, char := 'T', color := Color.darkerGreen, name := "Troll"
    blocks := true, alive := true
    fighter := some { base_max_hp := 30, hp := 1, base_defense := 2, base_power := 8,
                      on_death := DeathCallback.Monster, xp := 100 }
    ai := some Ai.Basic, item := none, always_visible := false, level := 1, equipment := none }

/-- C1 counterexample: a fireball at (0,0) kills both the orc (35 xp) and the
troll (100 xp) in one sweep, yet the player is credited 100 xp — the xp of
the last kill only — not the claimed sum 135. -/
theorem fireball_xp_not_summed :
    ((cast_fireball_at 0 0 [exPlayer1, exOrcLow, exTrollLow] exGame0).map
        (fun r => (r.2.1[PLAYER]?).bind (fun o => o.fighter.map Fighter.xp)))
      = some (some 100) ∧ (100 : Int) ≠ 0 + (35 + 100) := by
  decide

/-- Witness for `cast_fireball_at_spec`: the player and one orc. -/
theorem cast_fireball_at_spec_witness :
    [exPlayer1, exOrcLow][PLAYER]? = some exPlayer1 ∧
    (∃ objs2 game2,
      cast_fireball_at 0 0 [exPlayer1, exOrcLow] exGame0
        = some (UseResult.UsedUp, objs2, game2) ∧
      objs2.length = [exPlayer1, exOrcLow].length ∧
      (∀ j, j ≠ PLAYER → objs2[j]? = Option.map (fb_apply 0 0) [exPlayer1, exOrcLow][j]?) ∧
      objs2[PLAYER]? = some { fb_apply 0 0 exPlayer1 with
        fighter := (fb_apply 0 0 exPlayer1).fighter.map
          (fun f => { f with xp := f.xp + last_kill_xp 0 0 [exPlayer1, exOrcLow] }) }) :=
  ⟨rfl, cast_fireball_at_spec 0 0 [exPlayer1, exOrcLow] exGame0 exPlayer1 _ rfl rfl rfl⟩

/-! ### Lightning bolt (`map/mod.rs::closest_monster`,
`spell_effects/lightning/mod.rs::cast_lightning`) -/

/-- The candidate filter of `closest_monster`: a non-player entity with a
fighter and an AI state whose tile the FOV oracle reports visible. -/
def lightning_cand (fov : Int → Int → Bool) (idx : Nat) (o : GameObject) : Prop :=
  idx ≠ PLAYER ∧ o.fighter.isSome = true ∧ o.ai.isSome = true ∧ fov o.x o.y = true

instance (fov : Int → Int → Bool) (idx : Nat) (o : GameObject) :
    Decidable (lightning_cand fov idx o) := by
  unfold lightning_cand
  infer_instance

/-- The scan of `closest_monster`, on squared distances (comparing `f32`
square roots of board-sized integers is comparing the integers, see header;
the initial `closest_dist = (max_range + 1) as f32` becomes the square
`(max_range + 1)^2`).  The Rust loop reads `objects[PLAYER]` anew each
iteration; `objects` is never mutated there, so the hoisted `player` is the
same value. -/
def closest_monster_loop (fov : Int → Int → Bool) (player : GameObject)
    (l : List GameObject) (idx : Nat) (closest_enemy : Option Nat) (closest_d2 : Int) :
    Option Nat × Int :=
  match l with
  | [] => (closest_enemy, closest_d2)
  | o :: rest =>
      if lightning_cand fov idx o then
        let d2 := player.distance_to_sq o
        if d2 < closest_d2 then closest_monster_loop fov player rest (idx + 1) (some idx) d2
        else closest_monster_loop fov player rest (idx + 1) closest_enemy closest_d2
      else closest_monster_loop fov player rest (idx + 1) closest_enemy closest_d2

/-- `closest_monster` from `map/mod.rs`.  On an empty collection the Rust
loop body never runs and the result is `None`, matching the `none` branch. -/
def closest_monster (max_range : Int) (objects : List GameObject)
    (fov : Int → Int → Bool) : Option Nat :=
  match objects[PLAYER]? with
  | none => none
  | some player =>
      (closest_monster_loop fov player objects 0 none ((max_range + 1) ^ 2)).1

/-- The zap message of `cast_lightning`. -/
def lightning_zap_message (name : String) (damage : Int) : String :=
  s!"A lightning bolt strikes the {name} with a loud thunder! \n The damage is {damage} hit points "

/-- The log update of `cast_lightning` before the damage is applied. -/
def lightning_logged (game : Game) (name : String) (damage : Int) : Game :=
  { game with log := game.log.add (lightning_zap_message name damage) Color.lightBlue }

/-- `cast_lightning` from `spell_effects/lightning/mod.rs`, parametrized by
the `LIGHTNING_RANGE` and `LIGHTNING_DAMAGE` constants (the `constants::game`
module is not under `src/`). -/
def cast_lightning (lightning_range lightning_damage : Int) (objects : List GameObject)
    (game : Game) (fov : Int → Int → Bool) : Option (UseResult × List GameObject × Game) :=
  match closest_monster lightning_range objects fov with
  | some monster_id =>
      match objects[monster_id]? with
      | none => none
      | some monster =>
          let game := lightning_logged game monster.name lightning_damage
          let r := monster.take_damage lightning_damage game
          let objects := objects.set monster_id r.1
          match r.2.2 with
          | some xp =>
              match objects[PLAYER]? with
              | none => none
              | some player =>
                  match player.fighter with
                  | none => none
                  | some f =>
                      some (UseResult.UsedUp,
                        objects.set PLAYER
                          { player with fighter := some { f with xp := f.xp + xp } },
                        r.2.1)
          | none => some (UseResult.UsedUp, objects, r.2.1)
  | none =>
      some (UseResult.Cancelled, objects,
        { game with log := game.log.add "No enemy is close enough to strike." Color.red })

/-- Full characterization of the `closest_monster` scan: the running best
distance only shrinks; the result is either the untouched accumulator or a
candidate of the scanned suffix that strictly beat the incoming bound; and no
scanned candidate is strictly below the final bound. -/
theorem closest_monster_loop_charac (fov : Int → Int → Bool) (player : GameObject)
    (l : List GameObject) (idx : Nat) (best : Option Nat) (bestD2 : Int) :
    (closest_monster_loop fov player l idx best bestD2).2 ≤ bestD2 ∧
    (((closest_monster_loop fov player l idx best bestD2).1 = best ∧
        (closest_monster_loop fov player l idx best bestD2).2 = bestD2) ∨
      (∃ k, ∃ hk : k < l.length,
        (closest_monster_loop fov player l idx best bestD2).1 = some (idx + k) ∧
        lightning_cand fov (idx + k) l[k] ∧
        (closest_monster_loop fov player l idx best bestD2).2
          = player.distance_to_sq l[k] ∧
        (closest_monster_loop fov player l idx best bestD2).2 < bestD2)) ∧
    (∀ k, (hk : k < l.length) → lightning_cand fov (idx + k) l[k] →
      ¬player.distance_to_sq l[k] < (closest_monster_loop fov player l idx best bestD2).2) := by
  induction l generalizing idx best bestD2 with
  | nil =>
      refine ⟨le_refl _, Or.inl ⟨rfl, rfl⟩, ?_⟩
      intro k hk
      simp at hk
  | cons o rest ih =>
      by_cases hc : lightning_cand fov idx o
      · by_cases hd : player.distance_to_sq o < bestD2
        · have hr : closest_monster_loop fov player (o :: rest) idx best bestD2
              = closest_monster_loop fov player rest (idx + 1) (some idx)
                  (player.distance_to_sq o) := by
            simp [closest_monster_loop, hc, hd]
          obtain ⟨ih1, ih2, ih3⟩ := ih (idx + 1) (some idx) (player.distance_to_sq o)
          rw [hr]
          refine ⟨le_trans ih1 (le_of_lt hd), ?_, ?_⟩
          · rcases ih2 with ⟨hbest, hbd⟩ | ⟨k, hk, hbest, hcand, hbd, hlt⟩
            · exact Or.inr ⟨0, by simp, by simpa using hbest, by simpa using hc,
                by simpa using hbd, by rw [hbd]; exact hd⟩
            · refine Or.inr ⟨k + 1, by simpa using Nat.succ_lt_succ hk, ?_, ?_, ?_, ?_⟩
              · rw [hbest]
                congr 1
                omega
              · have : idx + (k + 1) = idx + 1 + k := by omega
                rw [this]
                simpa using hcand
              · simpa using hbd
              · exact lt_trans hlt hd
          · intro k hk hcand
            cases k with
            | zero =>
                intro hlt
                simp only [List.getElem_cons_zero] at hlt
                exact absurd (lt_of_lt_of_le hlt ih1) (lt_irrefl _)
            | succ k2 =>
                have : idx + (k2 + 1) = idx + 1 + k2 := by omega
                rw [this] at hcand
                have hk2 : k2 < rest.length := by simpa using Nat.lt_of_succ_lt_succ hk
                have := ih3 k2 hk2 (by simpa using hcand)
                simpa using this
        · have hr : closest_monster_loop fov player (o :: rest) idx best bestD2
              = closest_monster_loop fov player rest (idx + 1) best bestD2 := by
            simp [closest_monster_loop, hc, hd]
          obtain ⟨ih1, ih2, ih3⟩ := ih (idx + 1) best bestD2
          rw [hr]
          refine ⟨ih1, ?_, ?_⟩
          · rcases ih2 with h | ⟨k, hk, hbest, hcand, hbd, hlt⟩
            · exact Or.inl h
            · refine Or.inr ⟨k + 1, by simpa using Nat.succ_lt_succ hk, ?_, ?_, ?_, hlt⟩
              · rw [hbest]
                congr 1
                omega
              · have : idx + (k + 1) = idx + 1 + k := by omega
                rw [this]
                simpa using hcand
              · simpa using hbd
          · intro k hk hcand
            cases k with
            | zero =>
                intro hlt
                simp only [List.getElem_cons_zero] at hlt
                exact hd (lt_of_lt_of_le hlt ih1)
            | succ k2 =>
                have : idx + (k2 + 1) = idx + 1 + k2 := by omega
                rw [this] at hcand
                have hk2 : k2 < rest.length := by simpa using Nat.lt_of_succ_lt_succ hk
                have := ih3 k2 hk2 (by simpa using hcand)
                simpa using this
      · have hr : closest_monster_loop fov player (o :: rest) idx best bestD2
            = closest_monster_loop fov player rest (idx + 1) best bestD2 := by
          simp [closest_monster_loop, hc]
        obtain ⟨ih1, ih2, ih3⟩ := ih (idx + 1) best bestD2
        rw [hr]
        refine ⟨ih1, ?_, ?_⟩
        · rcases ih2 with h | ⟨k, hk, hbest, hcand, hbd, hlt⟩
          · exact Or.inl h
          · refine Or.inr ⟨k + 1, by simpa using Nat.succ_lt_succ hk, ?_, ?_, ?_, hlt⟩
            · rw [hbest]
              congr 1
              omega
            · have : idx + (k + 1) = idx + 1 + k := by omega
              rw [this]
              simpa using hcand
            · simpa using hbd
        · intro k hk hcand
          cases k with
          | zero =>
              rw [List.getElem_cons_zero] at hcand
              exact absurd hcand hc
          | succ k2 =>
              have : idx + (k2 + 1) = idx + 1 + k2 := by omega
              rw [this] at hcand
              have hk2 : k2 < rest.length := by simpa using Nat.lt_of_succ_lt_succ hk
              have := ih3 k2 hk2 (by simpa using hcand)
              simpa using this

/-! ### C2 — lightning bolt targeting -/

/-- C2 (amended): the lightning bolt targets the strictly nearest candidate
(non-player, fightered, AI-bearing, FOV-visible) whose Euclidean distance is
**strictly below `range + 1`** (squared distance < `(range+1)^2` — not `≤
range`, since the scan starts from `closest_dist = range + 1`); the target
takes the fixed damage (dying if that brings hp ≤ 0); if no candidate lies
strictly below `range + 1`, the cast cancels and the collection is returned
untouched. -/
theorem cast_lightning_spec (range damage : Int) (objects : List GameObject) (game : Game)
    (fov : Int → Int → Bool) (player : GameObject) (pf : Fighter)
    (h0 : objects[PLAYER]? = some player) (hpf : player.fighter = some pf) :
    (closest_monster range objects fov = none →
      cast_lightning range damage objects game fov = some (UseResult.Cancelled, objects,
        { game with log := game.log.add "No enemy is close enough to strike." Color.red }) ∧
      (∀ k, (hk : k < objects.length) → lightning_cand fov k objects[k] →
        ¬player.distance_to_sq objects[k] < (range + 1) ^ 2)) ∧
    (∀ m, closest_monster range objects fov = some m →
      ∃ hm : m < objects.length,
        lightning_cand fov m objects[m] ∧
        player.distance_to_sq objects[m] < (range + 1) ^ 2 ∧
        (∀ k, (hk : k < objects.length) → lightning_cand fov k objects[k] →
          player.distance_to_sq objects[m] ≤ player.distance_to_sq objects[k]) ∧
        (∃ objs2 g2, cast_lightning range damage objects game fov
            = some (UseResult.UsedUp, objs2, g2) ∧
          (∀ j, j ≠ m → j ≠ PLAYER → objs2[j]? = objects[j]?) ∧
          (∀ mf, objects[m].fighter = some mf → 0 < damage →
            (0 < mf.hp - damage →
              (objs2[m]?).bind GameObject.fighter = some { mf with hp := mf.hp - damage }) ∧
            (mf.hp - damage ≤ 0 →
              (objs2[m]?).map GameObject.alive = some false)))) := by
  obtain ⟨hch1, hch2, hch3⟩ :=
    closest_monster_loop_charac fov player objects 0 none ((range + 1) ^ 2)
  have hcm : closest_monster range objects fov
      = (closest_monster_loop fov player objects 0 none ((range + 1) ^ 2)).1 := by
    simp only [closest_monster, h0]
  constructor
  · intro hnone
    constructor
    · simp only [cast_lightning, hnone]
    · rw [hcm] at hnone
      rcases hch2 with ⟨_, hbd⟩ | ⟨k, hk, hbest, _, _, _⟩
      · intro k hk hcand
        have h3 := hch3 k hk (by simpa using hcand)
        rw [hbd] at h3
        exact h3
      · rw [hbest] at hnone
        cases hnone
  · intro m hsome
    rw [hcm] at hsome
    rcases hch2 with ⟨hbest, _⟩ | ⟨k, hk, hbest, hcand, hbd, hlt⟩
    · rw [hbest] at hsome
      cases hsome
    · rw [hbest] at hsome
      have hmk : m = k := by
        have := Option.some.inj hsome
        omega
      subst hmk
      have hcand2 : lightning_cand fov m objects[m] := by simpa using hcand
      have hkne0 : m ≠ PLAYER := hcand2.1
      have hclosest : closest_monster range objects fov = some m := by
        rw [hcm, hbest]
        simp
      have hmget : objects[m]? = some objects[m] := List.getElem?_eq_getElem hk
      refine ⟨hk, hcand2, ?_, ?_, ?_⟩
      · rw [hbd] at hlt
        simpa using hlt
      · intro k2 hk2 hc2
        have h3 := hch3 k2 hk2 (by simpa using hc2)
        rw [hbd] at h3
        omega
      · cases hxp : ((objects[m]).take_damage damage
            (lightning_logged game (objects[m]).name damage)).2.2 with
        | none =>
            refine ⟨objects.set m ((objects[m]).take_damage damage
                (lightning_logged game (objects[m]).name damage)).1,
              ((objects[m]).take_damage damage
                (lightning_logged game (objects[m]).name damage)).2.1, ?_, ?_, ?_⟩
            · simp only [cast_lightning, hclosest, hmget, hxp]
            · intro j hjm hj0
              rw [List.getElem?_set_ne (fun h => hjm h.symm)]
            · intro mf hmf hdpos
              have hget : (objects.set m ((objects[m]).take_damage damage
                  (lightning_logged game (objects[m]).name damage)).1)[m]?
                  = some (((objects[m]).take_damage damage
                    (lightning_logged game (objects[m]).name damage)).1) :=
                List.getElem?_set_self (by simpa using hk)
              constructor
              · intro hsur
                rw [hget]
                have hcond : ¬mf.hp ≤ damage := by omega
                simp [GameObject.take_damage, hmf, hdpos, hcond]
              · intro hdie
                have hcontra : ((objects[m]).take_damage damage
                    (lightning_logged game (objects[m]).name damage)).2.2 = some mf.xp := by
                  have hcond : mf.hp ≤ damage := by omega
                  cases hcb : mf.on_death <;>
                    simp [GameObject.take_damage, hmf, hdpos, hdie, hcond,
                      hcb, DeathCallback.callback, player_death, monster_death]
                rw [hcontra] at hxp
                cases hxp
        | some xp =>
            have hplayer2 : (objects.set m ((objects[m]).take_damage damage
                (lightning_logged game (objects[m]).name damage)).1)[PLAYER]?
                = some player := by
              rw [List.getElem?_set_ne hkne0]
              exact h0
            refine ⟨(objects.set m ((objects[m]).take_damage damage
                (lightning_logged game (objects[m]).name damage)).1).set PLAYER
                { player with fighter := some { pf with xp := pf.xp + xp } },
              ((objects[m]).take_damage damage
                (lightning_logged game (objects[m]).name damage)).2.1, ?_, ?_, ?_⟩
            · simp only [cast_lightning, hclosest, hmget, hxp, hplayer2, hpf]
            · intro j hjm hj0
              rw [List.getElem?_set_ne (fun h => hj0 h.symm),
                List.getElem?_set_ne (fun h => hjm h.symm)]
            · intro mf hmf hdpos
              have hget : ((objects.set m ((objects[m]).take_damage damage
                  (lightning_logged game (objects[m]).name damage)).1).set PLAYER
                  { player with fighter := some { pf with xp := pf.xp + xp } })[m]?
                  = some (((objects[m]).take_damage damage
                    (lightning_logged game (objects[m]).name damage)).1) := by
                rw [List.getElem?_set_ne (fun h => hkne0 h.symm)]
                exact List.getElem?_set_self (by simpa using hk)
              constructor
              · intro hsur
                have hcontra : ((objects[m]).take_damage damage
                    (lightning_logged game (objects[m]).name damage)).2.2 = none := by
                  have hcond : ¬mf.hp ≤ damage := by omega
                  simp [GameObject.take_damage, hmf, hdpos, hcond]
                rw [hcontra] at hxp
                cases hxp
              · intro hdie
                rw [hget]
                have hcond : mf.hp ≤ damage := by omega
                cases hcb : mf.on_death <;>
                  simp [GameObject.take_damage, hmf, hdpos, hdie, hcond,
                    hcb, DeathCallback.callback, player_death, monster_death]

/-- A visible orc at (5,3): Euclidean distance √34 ≈ 5.83 from the origin. -/
def exOrcFar : GameObject :=
  { x := 5, y := 3, char := 'o', color := Color.desaturatedGreen, name := "Orc"
    blocks := true, alive := true, fighter := some exOrcFighter
    ai := some Ai.Basic, item := none, always_visible := false, level := 1, equipment := none }

/-- C2 counterexample: with range 5, the only monster stands at squared
distance 34 > 5² — strictly beyond the fixed range — yet `closest_monster`
selects it (34 < (5+1)² = 36) and the cast zaps it (`UsedUp`, hp 20 → 15)
instead of cancelling with no hp change. -/
theorem lightning_targets_beyond_range :
    closest_monster 5 [exPlayer1, exOrcFar] (fun _ _ => true) = some 1 ∧
    exPlayer1.distance_to_sq exOrcFar = 34 ∧ ¬(34 : Int) ≤ 5 ^ 2 ∧
    ((cast_lightning 5 5 [exPlayer1, exOrcFar] exGame0 (fun _ _ => true)).map
        (fun r => (r.1, (r.2.1[1]?).bind (fun o => o.fighter.map Fighter.hp))))
      = some (UseResult.UsedUp, some 15) := by
  decide

/-- Witness for `cast_lightning_spec` at the two-object scenario. -/
theorem cast_lightning_spec_witness :
    [exPlayer1, exOrcFar][PLAYER]? = some exPlayer1 ∧
    ((closest_monster 5 [exPlayer1, exOrcFar] (fun _ _ => true) = none →
      cast_lightning 5 5 [exPlayer1, exOrcFar] exGame0 (fun _ _ => true)
        = some (UseResult.Cancelled, [exPlayer1, exOrcFar],
          { exGame0 with
              log := exGame0.log.add "No enemy is close enough to strike." Color.red }) ∧
      (∀ k, (hk : k < [exPlayer1, exOrcFar].length) →
        lightning_cand (fun _ _ => true) k [exPlayer1, exOrcFar][k] →
        ¬exPlayer1.distance_to_sq [exPlayer1, exOrcFar][k] < (5 + 1) ^ 2)) ∧
    (∀ m, closest_monster 5 [exPlayer1, exOrcFar] (fun _ _ => true) = some m →
      ∃ hm : m < [exPlayer1, exOrcFar].length,
        lightning_cand (fun _ _ => true) m [exPlayer1, exOrcFar][m] ∧
        exPlayer1.distance_to_sq [exPlayer1, exOrcFar][m] < (5 + 1) ^ 2 ∧
        (∀ k, (hk : k < [exPlayer1, exOrcFar].length) →
          lightning_cand (fun _ _ => true) k [exPlayer1, exOrcFar][k] →
          exPlayer1.distance_to_sq [exPlayer1, exOrcFar][m]
            ≤ exPlayer1.distance_to_sq [exPlayer1, exOrcFar][k]) ∧
        (∃ objs2 g2, cast_lightning 5 5 [exPlayer1, exOrcFar] exGame0 (fun _ _ => true)
            = some (UseResult.UsedUp, objs2, g2) ∧
          (∀ j, j ≠ m → j ≠ PLAYER → objs2[j]? = [exPlayer1, exOrcFar][j]?) ∧
          (∀ mf, [exPlayer1, exOrcFar][m].fighter = some mf → 0 < (5 : Int) →
            (0 < mf.hp - 5 →
              (objs2[m]?).bind GameObject.fighter = some { mf with hp := mf.hp - 5 }) ∧
            (mf.hp - 5 ≤ 0 →
              (objs2[m]?).map GameObject.alive = some false))))) :=
  ⟨rfl, cast_lightning_spec 5 5 [exPlayer1, exOrcFar] exGame0 (fun _ _ => true) exPlayer1 _
    rfl rfl⟩

/-! ### AI engine (`ai/mod.rs`) -/

/-- Lookup of `map[x][y]`; `none` models the out-of-bounds (or negative
index, which panics through the `usize` cast) panic. -/
def getTile? (m : GameMap) (x y : Int) : Option Tile :=
  if x < 0 ∨ y < 0 then none
  else
    match m[x.toNat]? with
    | none => none
    | some row => row[y.toNat]?

/-- `is_blocked` from `map/mod.rs`: blocked tile, or any blocking object on
the cell. -/
def is_blocked (x y : Int) (map : GameMap) (objects : List GameObject) : Option Bool :=
  match getTile? map x y with
  | none => none
  | some t =>
      if t.blocked then some true
      else some (objects.any (fun object => object.blocks && decide (object.pos = (x, y))))

/-- `move_by` from `ai/mod.rs`: step if the destination is not blocked,
silently skip otherwise. -/
def move_by (id : Nat) (dx dy : Int) (game : Game) (objects : List GameObject) :
    Option (List GameObject) :=
  match objects[id]? with
  | none => none
  | some o =>
      match is_blocked (o.x + dx) (o.y + dy) game.map objects with
      | none => none
      | some true => some objects
      | some false => some (objects.set id (o.set_pos (o.x + dx) (o.y + dy)))

/-- The rounded normalized component of `move_towards`: `round(dx / sqrt d2)`
for `|dx| ≤ sqrt d2`, computed exactly over the integers — the quotient
rounds (ties away from zero) to `sgn dx` iff `|dx| / sqrt d2 ≥ 1/2` iff
`4 dx² ≥ d2` (and a `0/0` division yields NaN, which Rust casts to 0,
matching the `d2 = 0` case here). -/
def round_toward (dx d2 : Int) : Int :=
  if 4 * dx ^ 2 ≥ d2 then (if dx > 0 then 1 else if dx < 0 then -1 else 0) else 0

/-- `move_towards` from `ai/mod.rs`. -/
def move_towards (id : Nat) (target_x target_y : Int) (game : Game)
    (objects : List GameObject) : Option (List GameObject) :=
  match objects[id]? with
  | none => none
  | some o =>
      let dx := target_x - o.x
      let dy := target_y - o.y
      let d2 := dx ^ 2 + dy ^ 2
      move_by id (round_toward dx d2) (round_toward dy d2) game objects

/-- `ai_basic` from `ai/mod.rs` (`distance_to >= 2.0` is squared distance
`≥ 4`; `mut_two` with equal indices panics, hence `none`). -/
def ai_basic (monster_id : Nat) (objects : List GameObject) (game : Game)
    (fov : Int → Int → Bool) : Option (List GameObject × Game × Ai) :=
  match objects[monster_id]? with
  | none => none
  | some monster =>
      if fov monster.x monster.y then
        match objects[PLAYER]? with
        | none => none
        | some player =>
            if monster.distance_to_sq player ≥ 4 then
              match move_towards monster_id player.x player.y game objects with
              | none => none
              | some objects2 => some (objects2, game, Ai.Basic)
            else if (player.fighter.map (fun f => decide (f.hp > 0))).getD false then
              if monster_id = PLAYER then none
              else
                match monster.attack player game with
                | none => none
                | some (monster2, player2, game2) =>
                    some ((objects.set monster_id monster2).set PLAYER player2, game2,
                      Ai.Basic)
            else some (objects, game, Ai.Basic)
      else some (objects, game, Ai.Basic)

/-- The expiry message of `ai_confused`. -/
def confused_end_message (name : String) : String :=
  s!"The {name} is no longer confused!"

/-- `ai_confused` from `ai/mod.rs`, with the two `gen_range(-1, 2)` draws as
oracle inputs `rx, ry`. -/
def ai_confused (monster_id : Nat) (objects : List GameObject) (game : Game)
    (previous_ai : Ai) (num_turns : Int) (rx ry : Int) :
    Option (List GameObject × Game × Ai) :=
  if num_turns ≥ 0 then
    match move_by monster_id rx ry game objects with
    | none => none
    | some objects2 => some (objects2, game, Ai.Confused previous_ai (num_turns - 1))
  else
    match objects[monster_id]? with
    | none => none
    | some monster =>
        some (objects,
          { game with
              log := game.log.add (confused_end_message monster.name) Color.red },
          previous_ai)

/-- `take_turn` from `ai/mod.rs`: take the AI out, dispatch, store the new
AI back. -/
def take_turn (monster_id : Nat) (objects : List GameObject) (game : Game)
    (fov : Int → Int → Bool) (rx ry : Int) : Option (List GameObject × Game) :=
  match objects[monster_id]? with
  | none => none
  | some monster =>
      match monster.ai with
      | none => some (objects, game)
      | some ai =>
          let objects := objects.set monster_id { monster with ai := none }
          let r :=
            match ai with
            | Ai.Basic => ai_basic monster_id objects game fov
            | Ai.Confused previous_ai num_turns =>
                ai_confused monster_id objects game previous_ai num_turns rx ry
          match r with
          | none => none
          | some (objects2, game2, new_ai) =>
              match objects2[monster_id]? with
              | none => none
              | some m2 => some (objects2.set monster_id { m2 with ai := some new_ai }, game2)

/-- `move_by` on a valid index: stays put on a blocked destination, steps on
an unblocked one. -/
theorem move_by_spec (id : Nat) (dx dy : Int) (game : Game) (objects : List GameObject)
    (o : GameObject) (ho : objects[id]? = some o) :
    (is_blocked (o.x + dx) (o.y + dy) game.map objects = some true →
      move_by id dx dy game objects = some objects) ∧
    (is_blocked (o.x + dx) (o.y + dy) game.map objects = some false →
      move_by id dx dy game objects
        = some (objects.set id (o.set_pos (o.x + dx) (o.y + dy)))) := by
  constructor <;> intro h <;> simp [move_by, ho, h]

/-- One `take_turn` of a `Confused {prev, n}` entity: with `n ≥ 0` it makes
one `(rx, ry)` step subject to the blocked-check (silently skipped when
blocked) and its AI becomes `Confused {prev, n-1}`, nothing else changing;
with `n < 0` it logs the expiry message and its AI becomes exactly the
unwrapped `prev`, position untouched. -/
theorem take_turn_confused (monster_id : Nat) (objects : List GameObject) (game : Game)
    (fov : Int → Int → Bool) (rx ry : Int) (monster : GameObject) (prev : Ai) (n : Int)
    (hm : objects[monster_id]? = some monster)
    (hai : monster.ai = some (Ai.Confused prev n)) :
    (0 ≤ n → ∀ t, getTile? game.map (monster.x + rx) (monster.y + ry) = some t →
      ∃ m2, take_turn monster_id objects game fov rx ry
          = some (objects.set monster_id m2, game) ∧
        m2.ai = some (Ai.Confused prev (n - 1)) ∧
        (∀ j, j ≠ monster_id →
          (objects.set monster_id m2)[j]? = objects[j]?) ∧
        (is_blocked (monster.x + rx) (monster.y + ry) game.map
            (objects.set monster_id { monster with ai := none }) = some true →
          (m2.x, m2.y) = (monster.x, monster.y)) ∧
        (is_blocked (monster.x + rx) (monster.y + ry) game.map
            (objects.set monster_id { monster with ai := none }) = some false →
          (m2.x, m2.y) = (monster.x + rx, monster.y + ry))) ∧
    (n < 0 →
      take_turn monster_id objects game fov rx ry
        = some (objects.set monster_id { monster with ai := some prev },
            { game with
                log := game.log.add (confused_end_message monster.name) Color.red })) := by
  have hlt : monster_id < objects.length := (List.getElem?_eq_some.mp hm).1
  have hset : (objects.set monster_id { monster with ai := none })[monster_id]?
      = some { monster with ai := none } := List.getElem?_set_self (by simpa using hlt)
  constructor
  · intro hn t ht
    have hb : ∃ b, is_blocked (monster.x + rx) (monster.y + ry) game.map
        (objects.set monster_id { monster with ai := none }) = some b := by
      unfold is_blocked
      rw [ht]
      by_cases hblk : t.blocked
      · exact ⟨true, by simp [hblk]⟩
      · exact ⟨(objects.set monster_id { monster with ai := none }).any
          (fun object => object.blocks &&
            decide (object.pos = (monster.x + rx, monster.y + ry))), by simp [hblk]⟩
    obtain ⟨b, hb⟩ := hb
    cases b with
    | true =>
        have hmv := (move_by_spec monster_id rx ry game
          (objects.set monster_id { monster with ai := none })
          { monster with ai := none } hset).1 hb
        refine ⟨{ monster with ai := some (Ai.Confused prev (n - 1)) }, ?_, rfl, ?_, ?_, ?_⟩
        · simp only [take_turn, hm, hai, ai_confused, if_pos hn, hmv, hset, List.set_set]
        · intro j hj
          rw [List.getElem?_set_ne (fun h => hj h.symm)]
        · intro _
          rfl
        · intro hfalse
          rw [hb] at hfalse
          cases hfalse
    | false =>
        have hmv := (move_by_spec monster_id rx ry game
          (objects.set monster_id { monster with ai := none })
          { monster with ai := none } hset).2 hb
        have hset2 : ((objects.set monster_id { monster with ai := none }).set monster_id
            (GameObject.set_pos { monster with ai := none } (monster.x + rx)
              (monster.y + ry)))[monster_id]?
            = some (GameObject.set_pos { monster with ai := none } (monster.x + rx)
              (monster.y + ry)) := by
          rw [List.set_set]
          exact List.getElem?_set_self (by simpa using hlt)
        refine ⟨{ monster with
            x := monster.x + rx
            y := monster.y + ry
            ai := some (Ai.Confused prev (n - 1)) }, ?_, rfl, ?_, ?_, ?_⟩
        · have hset3 : (objects.set monster_id
              { monster with
                  x := monster.x + rx
                  y := monster.y + ry
                  ai := none })[monster_id]?
              = some { monster with
                  x := monster.x + rx
                  y := monster.y + ry
                  ai := none } :=
            List.getElem?_set_self (by simpa using hlt)
          simp [take_turn, hm, hai, ai_confused, if_pos hn, hmv, hset2, hset3, List.set_set,
            GameObject.set_pos]
        · intro j hj
          rw [List.getElem?_set_ne (fun h => hj h.symm)]
        · intro htrue
          rw [hb] at htrue
          cases htrue
        · intro _
          rfl
  · intro hn
    have hconf : ai_confused monster_id
        (objects.set monster_id { monster with ai := none }) game prev n rx ry
        = some (objects.set monster_id { monster with ai := none },
            { game with
                log := game.log.add (confused_end_message monster.name) Color.red },
            prev) := by
      unfold ai_confused
      rw [if_neg (by omega : ¬n ≥ 0), hset]
    simp only [take_turn, hm, hai, hconf, hset, List.set_set]

/-! ### C6 — confused AI -/

/-- C6: a `Confused {prev, n}` entity with `n ≥ 0` makes one random step
(each axis drawn from {-1,0,1}, blocked-check first, silently skipped when
blocked) and its counter drops to `n-1`; on the turn where the counter is
negative it logs the "no longer confused" message and its AI becomes exactly
the wrapped `prev`; consequently with `n = 0` it moves exactly once more and
reverts on the following turn. -/
theorem confused_ai_spec (monster_id : Nat) (objects : List GameObject) (game : Game)
    (fov : Int → Int → Bool) (rx ry : Int) (monster : GameObject) (prev : Ai) (n : Int)
    (hm : objects[monster_id]? = some monster)
    (hai : monster.ai = some (Ai.Confused prev n))
    (hrx : -1 ≤ rx ∧ rx ≤ 1) (hry : -1 ≤ ry ∧ ry ≤ 1) :
    (0 ≤ n → ∀ t, getTile? game.map (monster.x + rx) (monster.y + ry) = some t →
      ∃ m2, take_turn monster_id objects game fov rx ry
          = some (objects.set monster_id m2, game) ∧
        m2.ai = some (Ai.Confused prev (n - 1)) ∧
        (∀ j, j ≠ monster_id → (objects.set monster_id m2)[j]? = objects[j]?) ∧
        (is_blocked (monster.x + rx) (monster.y + ry) game.map
            (objects.set monster_id { monster with ai := none }) = some true →
          (m2.x, m2.y) = (monster.x, monster.y)) ∧
        (is_blocked (monster.x + rx) (monster.y + ry) game.map
            (objects.set monster_id { monster with ai := none }) = some false →
          (m2.x, m2.y) = (monster.x + rx, monster.y + ry))) ∧
    (n < 0 →
      take_turn monster_id objects game fov rx ry
        = some (objects.set monster_id { monster with ai := some prev },
            { game with
                log := game.log.add (confused_end_message monster.name) Color.red })) ∧
    (n = 0 → ∀ t, getTile? game.map (monster.x + rx) (monster.y + ry) = some t →
      ∀ (fov2 : Int → Int → Bool) (rx2 ry2 : Int),
      ∃ m2, take_turn monster_id objects game fov rx ry
          = some (objects.set monster_id m2, game) ∧
        m2.ai = some (Ai.Confused prev (-1)) ∧
        take_turn monster_id (objects.set monster_id m2) game fov2 rx2 ry2
          = some ((objects.set monster_id m2).set monster_id { m2 with ai := some prev },
              { game with
                  log := game.log.add (confused_end_message m2.name) Color.red })) := by
  obtain ⟨h1, h2⟩ := take_turn_confused monster_id objects game fov rx ry monster prev n hm hai
  refine ⟨h1, h2, ?_⟩
  intro hn0 t ht fov2 rx2 ry2
  subst hn0
  obtain ⟨m2, heq, hai2, hframe, hblk1, hblk2⟩ := h1 le_rfl t ht
  have hai2' : m2.ai = some (Ai.Confused prev (-1)) := by
    rw [hai2]
    norm_num
  have hm2 : (objects.set monster_id m2)[monster_id]? = some m2 := by
    have hlt : monster_id < objects.length := (List.getElem?_eq_some.mp hm).1
    exact List.getElem?_set_self (by simpa using hlt)
  obtain ⟨_, hsecond⟩ := take_turn_confused monster_id (objects.set monster_id m2) game
    fov2 rx2 ry2 m2 prev (-1) hm2 hai2'
  exact ⟨m2, heq, hai2', hsecond (by norm_num)⟩

/-- An orc confused for 0 more turns, standing at (1,1). -/
def exConfusedOrc : GameObject :=
  { x := 1, y := 1, char := 'o', color := Color.desaturatedGreen, name := "Orc"
    blocks := true, alive := true, fighter := some exOrcFighter
    ai := some (Ai.Confused Ai.Basic 0), item := none, always_visible := false
    level := 1, equipment := none }

/-- A session with a 3×3 floor of empty tiles. -/
def exMapGame : Game :=
  { map := [[Tile.empty, Tile.empty, Tile.empty], [Tile.empty, Tile.empty, Tile.empty],
      [Tile.empty, Tile.empty, Tile.empty]]
    log := [], inventory := [], dungeon_level := 1 }

/-- Witness for `confused_ai_spec`: the confused orc at counter 0, draw
(0,0). -/
theorem confused_ai_spec_witness :
    [exPlayer1, exConfusedOrc][1]? = some exConfusedOrc ∧
    exConfusedOrc.ai = some (Ai.Confused Ai.Basic 0) ∧
    ((0 ≤ (0 : Int) → ∀ t,
        getTile? exMapGame.map (exConfusedOrc.x + 0) (exConfusedOrc.y + 0) = some t →
      ∃ m2, take_turn 1 [exPlayer1, exConfusedOrc] exMapGame (fun _ _ => true) 0 0
          = some ([exPlayer1, exConfusedOrc].set 1 m2, exMapGame) ∧
        m2.ai = some (Ai.Confused Ai.Basic ((0 : Int) - 1)) ∧
        (∀ j, j ≠ 1 →
          ([exPlayer1, exConfusedOrc].set 1 m2)[j]? = [exPlayer1, exConfusedOrc][j]?) ∧
        (is_blocked (exConfusedOrc.x + 0) (exConfusedOrc.y + 0) exMapGame.map
            ([exPlayer1, exConfusedOrc].set 1 { exConfusedOrc with ai := none })
            = some true →
          (m2.x, m2.y) = (exConfusedOrc.x, exConfusedOrc.y)) ∧
        (is_blocked (exConfusedOrc.x + 0) (exConfusedOrc.y + 0) exMapGame.map
            ([exPlayer1, exConfusedOrc].set 1 { exConfusedOrc with ai := none })
            = some false →
          (m2.x, m2.y) = (exConfusedOrc.x + 0, exConfusedOrc.y + 0))) ∧
    ((0 : Int) < 0 →
      take_turn 1 [exPlayer1, exConfusedOrc] exMapGame (fun _ _ => true) 0 0
        = some ([exPlayer1, exConfusedOrc].set 1 { exConfusedOrc with ai := some Ai.Basic },
            { exMapGame with
                log := exMapGame.log.add (confused_end_message exConfusedOrc.name)
                  Color.red })) ∧
    ((0 : Int) = 0 → ∀ t,
        getTile? exMapGame.map (exConfusedOrc.x + 0) (exConfusedOrc.y + 0) = some t →
      ∀ (fov2 : Int → Int → Bool) (rx2 ry2 : Int),
      ∃ m2, take_turn 1 [exPlayer1, exConfusedOrc] exMapGame (fun _ _ => true) 0 0
          = some ([exPlayer1, exConfusedOrc].set 1 m2, exMapGame) ∧
        m2.ai = some (Ai.Confused Ai.Basic (-1)) ∧
        take_turn 1 ([exPlayer1, exConfusedOrc].set 1 m2) exMapGame fov2 rx2 ry2
          = some (([exPlayer1, exConfusedOrc].set 1 m2).set 1 { m2 with ai := some Ai.Basic },
              { exMapGame with
                  log := exMapGame.log.add (confused_end_message m2.name) Color.red }))) :=
  ⟨rfl, rfl, confused_ai_spec 1 [exPlayer1, exConfusedOrc] exMapGame (fun _ _ => true) 0 0
    exConfusedOrc Ai.Basic 0 rfl rfl (by decide) (by decide)⟩

/-! ### Dungeon generation (`map/mod.rs`: `Rect`, `create_room`, the tunnels and `create_map`) -/

/-- Constant `constants::gui::MAP_WIDTH`. -/
def MAP_WIDTH : Int := 80

/-- Constant `constants::gui::MAP_HEIGHT`. -/
def MAP_HEIGHT : Int := 43

/-- Struct `Rect` from `map/mod.rs`. -/
structure Rect where
  x1 : Int
  y1 : Int
  x2 : Int
  y2 : Int
deriving DecidableEq, Repr

/-- Constructor `Rect::new(x, y, w, h)`. -/
def Rect.new (x y w h : Int) : Rect :=
  { x1 := x
    y1 := y
    x2 := x + w
    y2 := y + h }

/-- Method `Rect::center`; Rust `i32` division truncates toward zero, which is
`Int.tdiv`. -/
def Rect.center (r : Rect) : Int × Int :=
  (Int.tdiv (r.x1 + r.x2) 2, Int.tdiv (r.y1 + r.y2) 2)

/-- Method `Rect::intersects_with` (bounds inclusive on both sides). -/
def Rect.intersects_with (r other : Rect) : Bool :=
  decide (r.x1 ≤ other.x2) && decide (r.x2 ≥ other.x1) &&
    decide (r.y1 ≤ other.y2) && decide (r.y2 ≥ other.y1)

/-- One `map[x as usize][y as usize] = Tile::empty()` store, shared by
`create_room` and both tunnel carvers; `none` models the panic on a negative
index (through the `usize` cast) or an out-of-bounds index. -/
def carve (m : GameMap) (x y : Int) : Option GameMap :=
  if x < 0 ∨ y < 0 then none
  else
    match m[x.toNat]? with
    | none => none
    | some row =>
        if y.toNat < row.length then
          some (m.set x.toNat (row.set y.toNat Tile.empty))
        else none

/-- Integer range `a..b` (half-open), as iterated by the Rust `for` loops. -/
def intRange (a b : Int) : List Int :=
  (List.range (b - a).toNat).map (fun (i : Nat) => a + (i : Int))

/-- Carve a list of cells left to right: the sequence of stores performed by
one Rust loop nest. -/
def carveList (m : GameMap) (cells : List (Int × Int)) : Option GameMap :=
  cells.foldlM (fun m c => carve m c.1 c.2) m

/-- The cells written by `create_room`: the interior of the rectangle,
exclusive of the one-tile border on every side (`(x1 + 1)..x2` by
`(y1 + 1)..y2`, `x` outer loop). -/
def room_cells (room : Rect) : List (Int × Int) :=
  (intRange (room.x1 + 1) room.x2).flatMap
    (fun x => (intRange (room.y1 + 1) room.y2).map (fun y => (x, y)))

/-- Function `create_room` from `map/mod.rs`. -/
def create_room (room : Rect) (m : GameMap) : Option GameMap :=
  carveList m (room_cells room)

/-- Function `create_h_tunnel`: carve row `y` for `x` in
`cmp::min(x1, x2)..=cmp::max(x1, x2)`. -/
def create_h_tunnel (x1 x2 y : Int) (m : GameMap) : Option GameMap :=
  carveList m ((intRange (min x1 x2) (max x1 x2 + 1)).map (fun x => (x, y)))

/-- Function `create_v_tunnel`: carve column `x` for `y` in
`cmp::min(y1, y2)..=cmp::max(y1, y2)`. -/
def create_v_tunnel (y1 y2 x : Int) (m : GameMap) : Option GameMap :=
  carveList m ((intRange (min y1 y2) (max y1 y2 + 1)).map (fun y => (x, y)))

/-- The random draws of one `create_map` loop iteration: width and height,
top-left position, and the `rand::random()` coin choosing the corridor order. -/
structure RoomCandidate where
  w : Int
  h : Int
  x : Int
  y : Int
  coin : Bool
deriving DecidableEq, Repr

/-- The rectangle `Rect::new(x, y, w, h)` of a candidate. -/
def RoomCandidate.rect (c : RoomCandidate) : Rect := Rect.new c.x c.y c.w c.h

/-- The `create_map` state the claim is about: the map under construction, the
accepted rooms, and the player position. `objects[PLAYER].set_pos` is the only
player mutation on this path; `place_objects` and the final stairs push only
insert further entities and never touch the map, the rooms or the player. -/
structure GenState where
  map : GameMap
  rooms : List Rect
  player_pos : Int × Int
deriving DecidableEq, Repr

/-- One loop iteration of `create_map` on candidate `c`. A rejected candidate
(`failed`) leaves the state untouched; an accepted one carves the room, places
the player at its center if it is the first room and otherwise carves the two
corridors from the previous accepted room (`rooms[rooms.len() - 1]`, whose
index panic on an empty list is the unreachable `none` branch of `getLast?`),
then pushes the rectangle. -/
def create_map_step (st : GenState) (c : RoomCandidate) : Option GenState :=
  if st.rooms.any (fun other_room => c.rect.intersects_with other_room) then some st
  else
    match create_room c.rect st.map with
    | none => none
    | some map1 =>
        if st.rooms.isEmpty then
          some { map := map1
                 rooms := st.rooms ++ [c.rect]
                 player_pos := c.rect.center }
        else
          match st.rooms.getLast? with
          | none => none
          | some prev =>
              (if c.coin then
                (create_h_tunnel prev.center.1 c.rect.center.1 prev.center.2 map1).bind
                  (fun m => create_v_tunnel prev.center.2 c.rect.center.2 c.rect.center.1 m)
              else
                (create_v_tunnel prev.center.2 c.rect.center.2 prev.center.1 map1).bind
                  (fun m => create_h_tunnel prev.center.1 c.rect.center.1 c.rect.center.2 m)).map
                (fun m =>
                  { map := m
                    rooms := st.rooms ++ [c.rect]
                    player_pos := st.player_pos })

/-- The initial all-walls map of `create_map`. -/
def initial_map : GameMap :=
  List.replicate MAP_WIDTH.toNat (List.replicate MAP_HEIGHT.toNat Tile.wall)

/-- Function `create_map` over a given list of per-iteration random draws (the
`MAX_ROOMS` loop), with the player initially at `p0`. -/
def create_map (candidates : List RoomCandidate) (p0 : Int × Int) : Option GenState :=
  candidates.foldlM create_map_step
    { map := initial_map
      rooms := []
      player_pos := p0 }

/-- Modelled from the spec: a candidate has uniformly random width and height
within configured bounds and a uniformly random top-left position fully inside
the map bounds. The size constants live in the missing `constants::game`
module; any configured minimum size of at least 2 keeps the interior nonempty,
and `gen_range(0, MAP_WIDTH - w)` and `gen_range(0, MAP_HEIGHT - h)` give the
position bounds. -/
def candidate_ok (c : RoomCandidate) : Prop :=
  2 ≤ c.w ∧ 2 ≤ c.h ∧ 0 ≤ c.x ∧ c.x + c.w < MAP_WIDTH ∧ 0 ≤ c.y ∧ c.y + c.h < MAP_HEIGHT

instance (c : RoomCandidate) : Decidable (candidate_ok c) := by
  unfold candidate_ok
  infer_instance

/-- The rectangle of an in-bounds candidate: inside the map with a nonempty
interior. -/
def room_ok (r : Rect) : Prop :=
  0 ≤ r.x1 ∧ r.x1 + 2 ≤ r.x2 ∧ r.x2 < MAP_WIDTH ∧
    0 ≤ r.y1 ∧ r.y1 + 2 ≤ r.y2 ∧ r.y2 < MAP_HEIGHT

/-- An `MAP_WIDTH × MAP_HEIGHT` grid of tiles. -/
def mapDims (m : GameMap) : Prop :=
  m.length = MAP_WIDTH.toNat ∧ ∀ row ∈ m, row.length = MAP_HEIGHT.toNat

/-- An on-map cell. -/
def inRange (c : Int × Int) : Prop :=
  0 ≤ c.1 ∧ c.1 < MAP_WIDTH ∧ 0 ≤ c.2 ∧ c.2 < MAP_HEIGHT

lemma tdiv_two_eq_ediv (a : Int) (ha : 0 ≤ a) : Int.tdiv a 2 = a / 2 := by
  lift a to Nat using ha
  rfl

lemma center_bounds (r : Rect) (h : room_ok r) :
    r.x1 + 1 ≤ r.center.1 ∧ r.center.1 ≤ r.x2 - 1 ∧
      r.y1 + 1 ≤ r.center.2 ∧ r.center.2 ≤ r.y2 - 1 := by
  obtain ⟨hx0, hx2, hxw, hy0, hy2, hyh⟩ := h
  have h1 := tdiv_two_eq_ediv (r.x1 + r.x2) (by omega)
  have h2 := tdiv_two_eq_ediv (r.y1 + r.y2) (by omega)
  have hc1 : r.center.1 = Int.tdiv (r.x1 + r.x2) 2 := rfl
  have hc2 : r.center.2 = Int.tdiv (r.y1 + r.y2) 2 := rfl
  omega

lemma center_inRange (r : Rect) (h : room_ok r) : inRange r.center := by
  have hb := center_bounds r h
  unfold room_ok at h
  show 0 ≤ r.center.1 ∧ r.center.1 < MAP_WIDTH ∧ 0 ≤ r.center.2 ∧ r.center.2 < MAP_HEIGHT
  omega

lemma mem_intRange (a b x : Int) : x ∈ intRange a b ↔ a ≤ x ∧ x < b := by
  unfold intRange
  simp only [List.mem_map, List.mem_range]
  constructor
  · rintro ⟨i, hi, rfl⟩
    omega
  · rintro ⟨h1, h2⟩
    exact ⟨(x - a).toNat, by omega, by omega⟩

lemma mem_room_cells (room : Rect) (x y : Int) :
    (x, y) ∈ room_cells room ↔
      (room.x1 + 1 ≤ x ∧ x < room.x2) ∧ (room.y1 + 1 ≤ y ∧ y < room.y2) := by
  unfold room_cells
  simp only [List.mem_flatMap, List.mem_map, Prod.mk.injEq]
  constructor
  · rintro ⟨x0, hx0, y0, hy0, rfl, rfl⟩
    exact ⟨(mem_intRange _ _ _).mp hx0, (mem_intRange _ _ _).mp hy0⟩
  · rintro ⟨hx, hy⟩
    exact ⟨x, (mem_intRange _ _ _).mpr hx, y, (mem_intRange _ _ _).mpr hy, rfl, rfl⟩

lemma carve_some_elim (m m2 : GameMap) (x y : Int) (h : carve m x y = some m2) :
    ∃ row, 0 ≤ x ∧ 0 ≤ y ∧ m[x.toNat]? = some row ∧ y.toNat < row.length ∧
      m2 = m.set x.toNat (row.set y.toNat Tile.empty) := by
  unfold carve at h
  split at h
  · exact absurd h (by simp)
  · rename_i hneg
    cases hrow : m[x.toNat]? with
    | none =>
        simp only [hrow] at h
        exact absurd h (by simp)
    | some row =>
        simp only [hrow] at h
        split at h
        · rename_i hylt
          cases h
          exact ⟨row, by omega, by omega, rfl, hylt, rfl⟩
        · exact absurd h (by simp)

lemma carve_some_getTile (m m2 : GameMap) (x y : Int) (h : carve m x y = some m2)
    (x0 y0 : Int) :
    getTile? m2 x0 y0 =
      if x0 = x ∧ y0 = y then some Tile.empty else getTile? m x0 y0 := by
  obtain ⟨row, hx, hy, hrow, hylt, rfl⟩ := carve_some_elim m m2 x y h
  obtain ⟨hxlt, _⟩ := List.getElem?_eq_some.mp hrow
  unfold getTile?
  by_cases hneg : x0 < 0 ∨ y0 < 0
  · rw [if_pos hneg, if_pos hneg, if_neg (by omega)]
  · rw [if_neg hneg, if_neg hneg]
    by_cases hxx : x0.toNat = x.toNat
    · have hxeq : x0 = x := by omega
      rw [hxx]
      simp only [List.getElem?_set_self hxlt, hrow]
      by_cases hyy : y0.toNat = y.toNat
      · have hyeq : y0 = y := by omega
        rw [hyy, List.getElem?_set_self hylt, if_pos ⟨hxeq, hyeq⟩]
      · rw [List.getElem?_set_ne (fun he => hyy he.symm), if_neg (by omega)]
    · rw [List.getElem?_set_ne (fun he => hxx he.symm), if_neg (by omega)]

lemma carve_dims (m m2 : GameMap) (x y : Int) (h : carve m x y = some m2)
    (hd : mapDims m) : mapDims m2 := by
  obtain ⟨row, _, _, hrow, _, rfl⟩ := carve_some_elim m m2 x y h
  obtain ⟨hdl, hdr⟩ := hd
  refine ⟨by rw [List.length_set]; exact hdl, ?_⟩
  intro row2 hrow2
  rcases List.mem_or_eq_of_mem_set hrow2 with hin | rfl
  · exact hdr row2 hin
  · rw [List.length_set]
    exact hdr row (List.getElem?_mem hrow)

lemma carve_succ (m : GameMap) (c : Int × Int) (hd : mapDims m) (hr : inRange c) :
    ∃ m2, carve m c.1 c.2 = some m2 := by
  obtain ⟨hdl, hdr⟩ := hd
  obtain ⟨h1, h2, h3, h4⟩ := hr
  have hx : c.1.toNat < m.length := by
    rw [hdl]
    unfold MAP_WIDTH at h2 ⊢
    omega
  have hrow : m[c.1.toNat]? = some m[c.1.toNat] := List.getElem?_eq_getElem hx
  have hy : c.2.toNat < m[c.1.toNat].length := by
    rw [hdr _ (List.getElem_mem hx)]
    unfold MAP_HEIGHT at h4 ⊢
    omega
  refine ⟨m.set c.1.toNat (m[c.1.toNat].set c.2.toNat Tile.empty), ?_⟩
  unfold carve
  rw [if_neg (by omega), hrow]
  simp [hy]

lemma carveList_succ (cells : List (Int × Int)) :
    ∀ m : GameMap, mapDims m → (∀ c ∈ cells, inRange c) →
      ∃ m2, carveList m cells = some m2 ∧ mapDims m2 := by
  induction cells with
  | nil =>
      intro m hd _
      exact ⟨m, rfl, hd⟩
  | cons c rest ih =>
      intro m hd hall
      obtain ⟨m1, hm1⟩ := carve_succ m c hd (hall c (by simp))
      obtain ⟨m2, hm2, hd2⟩ := ih m1 (carve_dims m m1 c.1 c.2 hm1 hd)
        (fun c2 hc2 => hall c2 (by simp [hc2]))
      refine ⟨m2, ?_, hd2⟩
      unfold carveList at hm2 ⊢
      rw [List.foldlM_cons, hm1]
      exact hm2

lemma carveList_getTile (cells : List (Int × Int)) :
    ∀ m m2 : GameMap, carveList m cells = some m2 → ∀ x0 y0 : Int,
      getTile? m2 x0 y0 =
        if (x0, y0) ∈ cells then some Tile.empty else getTile? m x0 y0 := by
  induction cells with
  | nil =>
      intro m m2 h x0 y0
      unfold carveList at h
      rw [List.foldlM_nil] at h
      cases h
      simp
  | cons c rest ih =>
      intro m m2 h x0 y0
      unfold carveList at h
      rw [List.foldlM_cons] at h
      cases hc : carve m c.1 c.2 with
      | none => rw [hc] at h; exact absurd h (by simp)
      | some m1 =>
          rw [hc] at h
          have h2 : carveList m1 rest = some m2 := h
          have hmem := ih m1 m2 h2 x0 y0
          have hcar := carve_some_getTile m m1 c.1 c.2 hc x0 y0
          have hcons : ((x0, y0) ∈ c :: rest) ↔ ((x0 = c.1 ∧ y0 = c.2) ∨ (x0, y0) ∈ rest) := by
            simp [List.mem_cons, Prod.ext_iff]
          rw [hmem]
          by_cases hin : (x0, y0) ∈ rest
          · rw [if_pos hin, if_pos (hcons.mpr (Or.inr hin))]
          · rw [if_neg hin, hcar]
            by_cases heq : x0 = c.1 ∧ y0 = c.2
            · rw [if_pos heq, if_pos (hcons.mpr (Or.inl heq))]
            · rw [if_neg heq, if_neg (by
                intro hmem2
                rcases hcons.mp hmem2 with hcc | hcc
                · exact heq hcc
                · exact hin hcc)]

lemma carveList_keeps_empty (cells : List (Int × Int)) (m m2 : GameMap)
    (h : carveList m cells = some m2) (x0 y0 : Int)
    (he : getTile? m x0 y0 = some Tile.empty) :
    getTile? m2 x0 y0 = some Tile.empty := by
  rw [carveList_getTile cells m m2 h x0 y0]
  split
  · rfl
  · exact he

lemma carveList_sets_empty (cells : List (Int × Int)) (m m2 : GameMap)
    (h : carveList m cells = some m2) (x0 y0 : Int)
    (hin : (x0, y0) ∈ cells) :
    getTile? m2 x0 y0 = some Tile.empty := by
  rw [carveList_getTile cells m m2 h x0 y0, if_pos hin]

lemma initial_map_dims : mapDims initial_map := by
  unfold mapDims initial_map
  refine ⟨by simp, ?_⟩
  intro row hrow
  rw [List.eq_of_mem_replicate hrow]
  simp

lemma room_ok_of_candidate (c : RoomCandidate) (h : candidate_ok c) :
    room_ok c.rect := by
  unfold candidate_ok at h
  unfold room_ok RoomCandidate.rect Rect.new
  simp only []
  omega

lemma intersects_with_true (a b : Rect) :
    a.intersects_with b = true ↔
      (a.x1 ≤ b.x2 ∧ b.x1 ≤ a.x2 ∧ a.y1 ≤ b.y2 ∧ b.y1 ≤ a.y2) := by
  unfold Rect.intersects_with
  simp [Bool.and_eq_true, decide_eq_true_eq, ge_iff_le, and_assoc]

lemma intersects_with_false_symm (a b : Rect) (h : a.intersects_with b = false) :
    b.intersects_with a = false := by
  rw [Bool.eq_false_iff] at h ⊢
  intro hb
  refine h ?_
  rw [intersects_with_true] at hb ⊢
  omega

lemma create_room_spec (room : Rect) (m : GameMap) (hd : mapDims m) (hro : room_ok room) :
    ∃ m2, create_room room m = some m2 ∧ mapDims m2 ∧
      (∀ x0 y0, getTile? m x0 y0 = some Tile.empty → getTile? m2 x0 y0 = some Tile.empty) ∧
      (∀ x0 y0, room.x1 < x0 → x0 < room.x2 → room.y1 < y0 → y0 < room.y2 →
        getTile? m2 x0 y0 = some Tile.empty) := by
  unfold create_room
  have hall : ∀ c ∈ room_cells room, inRange c := by
    intro c hc
    obtain ⟨x, y⟩ := c
    rw [mem_room_cells] at hc
    unfold room_ok at hro
    show 0 ≤ x ∧ x < MAP_WIDTH ∧ 0 ≤ y ∧ y < MAP_HEIGHT
    omega
  obtain ⟨m2, hm2, hd2⟩ := carveList_succ (room_cells room) m hd hall
  refine ⟨m2, hm2, hd2, fun x0 y0 he => carveList_keeps_empty _ _ _ hm2 x0 y0 he, ?_⟩
  intro x0 y0 h1 h2 h3 h4
  exact carveList_sets_empty _ _ _ hm2 x0 y0
    ((mem_room_cells room x0 y0).mpr ⟨⟨by omega, h2⟩, ⟨by omega, h4⟩⟩)

lemma create_h_tunnel_spec (a b y : Int) (m : GameMap) (hd : mapDims m)
    (ha : 0 ≤ a ∧ a < MAP_WIDTH) (hb : 0 ≤ b ∧ b < MAP_WIDTH)
    (hy : 0 ≤ y ∧ y < MAP_HEIGHT) :
    ∃ m2, create_h_tunnel a b y m = some m2 ∧ mapDims m2 ∧
      ∀ x0 y0, getTile? m x0 y0 = some Tile.empty →
        getTile? m2 x0 y0 = some Tile.empty := by
  unfold create_h_tunnel
  have hall : ∀ c ∈ (intRange (min a b) (max a b + 1)).map (fun x => (x, y)), inRange c := by
    intro c hc
    simp only [List.mem_map] at hc
    obtain ⟨x, hx, rfl⟩ := hc
    rw [mem_intRange] at hx
    show 0 ≤ x ∧ x < MAP_WIDTH ∧ 0 ≤ y ∧ y < MAP_HEIGHT
    omega
  obtain ⟨m2, hm2, hd2⟩ := carveList_succ _ m hd hall
  exact ⟨m2, hm2, hd2, fun x0 y0 he => carveList_keeps_empty _ _ _ hm2 x0 y0 he⟩

lemma create_v_tunnel_spec (a b x : Int) (m : GameMap) (hd : mapDims m)
    (ha : 0 ≤ a ∧ a < MAP_HEIGHT) (hb : 0 ≤ b ∧ b < MAP_HEIGHT)
    (hx : 0 ≤ x ∧ x < MAP_WIDTH) :
    ∃ m2, create_v_tunnel a b x m = some m2 ∧ mapDims m2 ∧
      ∀ x0 y0, getTile? m x0 y0 = some Tile.empty →
        getTile? m2 x0 y0 = some Tile.empty := by
  unfold create_v_tunnel
  have hall : ∀ c ∈ (intRange (min a b) (max a b + 1)).map (fun y => (x, y)), inRange c := by
    intro c hc
    simp only [List.mem_map] at hc
    obtain ⟨y, hy, rfl⟩ := hc
    rw [mem_intRange] at hy
    show 0 ≤ x ∧ x < MAP_WIDTH ∧ 0 ≤ y ∧ y < MAP_HEIGHT
    omega
  obtain ⟨m2, hm2, hd2⟩ := carveList_succ _ m hd hall
  exact ⟨m2, hm2, hd2, fun x0 y0 he => carveList_keeps_empty _ _ _ hm2 x0 y0 he⟩

/-- Pairwise non-intersection of the accepted rooms. -/
def disjoint_rooms (rooms : List Rect) : Prop :=
  List.Pairwise (fun a b => a.intersects_with b = false) rooms

/-- The `create_map` loop invariant: well-shaped map, pairwise disjoint
in-bounds rooms, untouched state while no room is accepted, and once a first
room exists the player sits at its center on a carved tile. -/
def gen_inv (p0 : Int × Int) (st : GenState) : Prop :=
  mapDims st.map ∧
  disjoint_rooms st.rooms ∧
  (∀ r ∈ st.rooms, room_ok r) ∧
  (st.rooms = [] → st.map = initial_map ∧ st.player_pos = p0) ∧
  (∀ r0 rest, st.rooms = r0 :: rest →
    st.player_pos = r0.center ∧
      getTile? st.map r0.center.1 r0.center.2 = some Tile.empty)

lemma create_map_step_inv (p0 : Int × Int) (st : GenState) (c : RoomCandidate)
    (hinv : gen_inv p0 st) (hc : candidate_ok c) :
    ∃ st2, create_map_step st c = some st2 ∧ gen_inv p0 st2 := by
  obtain ⟨hdim, hdisj, hok, hemp, hhead⟩ := hinv
  unfold create_map_step
  by_cases hfail : st.rooms.any (fun other_room => c.rect.intersects_with other_room) = true
  · rw [if_pos hfail]
    exact ⟨st, rfl, hdim, hdisj, hok, hemp, hhead⟩
  · have hfail2 : st.rooms.any (fun other_room => c.rect.intersects_with other_room) = false :=
      Bool.eq_false_iff.mpr hfail
    have hnocross : ∀ r ∈ st.rooms, c.rect.intersects_with r = false := by
      intro r hr
      exact Bool.eq_false_iff.mpr ((List.any_eq_false.mp hfail2) r hr)
    have hrok := room_ok_of_candidate c hc
    obtain ⟨map1, hmap1, hd1, hkeep1, hcarved1⟩ := create_room_spec c.rect st.map hdim hrok
    have hcb := center_bounds c.rect hrok
    rw [if_neg hfail]
    simp only [hmap1]
    cases hrooms : st.rooms with
    | nil =>
        simp only [List.isEmpty_nil, if_true]
        refine ⟨_, rfl, hd1, ?_, ?_, ?_, ?_⟩
        · show disjoint_rooms ([] ++ [c.rect])
          unfold disjoint_rooms
          simp
        · intro r hr
          simp only [List.nil_append, List.mem_singleton] at hr
          rw [hr]
          exact hrok
        · intro habs
          simp at habs
        · intro r0 rest2 hr
          simp only [List.nil_append] at hr
          cases hr
          refine ⟨rfl, ?_⟩
          show getTile? map1 c.rect.center.1 c.rect.center.2 = some Tile.empty
          exact hcarved1 _ _ (by omega) (by omega) (by omega) (by omega)
    | cons r rest =>
        simp only [List.isEmpty_cons, if_false]
        obtain ⟨prev, hprev⟩ :=
          Option.isSome_iff_exists.mp (List.getLast?_isSome.mpr (List.cons_ne_nil r rest))
        simp only [hprev]
        have hprevmem : prev ∈ r :: rest := by
          rw [List.getLast?_eq_getElem?] at hprev
          exact List.getElem?_mem hprev
        have hprevok : room_ok prev := hok prev (by rw [hrooms]; exact hprevmem)
        have hprevc := center_inRange prev hprevok
        have hnewc := center_inRange c.rect hrok
        unfold inRange at hprevc hnewc
        have hold : st.player_pos = r.center ∧
            getTile? st.map r.center.1 r.center.2 = some Tile.empty := hhead r rest hrooms
        have hkeep1h := hkeep1 r.center.1 r.center.2 hold.2
        by_cases hcoin : c.coin = true
        · obtain ⟨mh, hmh, hdh, hkeeph⟩ :=
            create_h_tunnel_spec prev.center.1 c.rect.center.1 prev.center.2 map1 hd1
              ⟨hprevc.1, hprevc.2.1⟩ ⟨hnewc.1, hnewc.2.1⟩ ⟨hprevc.2.2.1, hprevc.2.2.2⟩
          obtain ⟨mv, hmv, hdv, hkeepv⟩ :=
            create_v_tunnel_spec prev.center.2 c.rect.center.2 c.rect.center.1 mh hdh
              ⟨hprevc.2.2.1, hprevc.2.2.2⟩ ⟨hnewc.2.2.1, hnewc.2.2.2⟩ ⟨hnewc.1, hnewc.2.1⟩
          simp only [hcoin, if_true, hmh, Option.some_bind, hmv, Option.map_some']
          refine ⟨_, rfl, hdv, ?_, ?_, ?_, ?_⟩
          · show disjoint_rooms ((r :: rest) ++ [c.rect])
            unfold disjoint_rooms
            rw [List.pairwise_append]
            refine ⟨by rw [hrooms] at hdisj; exact hdisj, by simp, ?_⟩
            intro a ha b hb
            simp only [List.mem_singleton] at hb
            rw [hb]
            exact intersects_with_false_symm _ _ (hnocross a (by rw [hrooms]; exact ha))
          · intro r2 hr2
            rcases List.mem_append.mp hr2 with hin | hin
            · exact hok r2 (by rw [hrooms]; exact hin)
            · rw [List.mem_singleton.mp hin]
              exact hrok
          · intro habs
            simp at habs
          · intro r0 rest2 hr
            rw [List.cons_append] at hr
            injection hr with hr0 _
            cases hr0
            refine ⟨hold.1, ?_⟩
            show getTile? mv r.center.1 r.center.2 = some Tile.empty
            exact hkeepv _ _ (hkeeph _ _ hkeep1h)
        · have hcoin2 : c.coin = false := Bool.eq_false_iff.mpr hcoin
          obtain ⟨mv, hmv, hdv, hkeepv⟩ :=
            create_v_tunnel_spec prev.center.2 c.rect.center.2 prev.center.1 map1 hd1
              ⟨hprevc.2.2.1, hprevc.2.2.2⟩ ⟨hnewc.2.2.1, hnewc.2.2.2⟩ ⟨hprevc.1, hprevc.2.1⟩
          obtain ⟨mh, hmh, hdh, hkeeph⟩ :=
            create_h_tunnel_spec prev.center.1 c.rect.center.1 c.rect.center.2 mv hdv
              ⟨hprevc.1, hprevc.2.1⟩ ⟨hnewc.1, hnewc.2.1⟩ ⟨hnewc.2.2.1, hnewc.2.2.2⟩
          simp only [hcoin2, Bool.false_eq_true, if_false, hmv, Option.some_bind, hmh,
            Option.map_some']
          refine ⟨_, rfl, hdh, ?_, ?_, ?_, ?_⟩
          · show disjoint_rooms ((r :: rest) ++ [c.rect])
            unfold disjoint_rooms
            rw [List.pairwise_append]
            refine ⟨by rw [hrooms] at hdisj; exact hdisj, by simp, ?_⟩
            intro a ha b hb
            simp only [List.mem_singleton] at hb
            rw [hb]
            exact intersects_with_false_symm _ _ (hnocross a (by rw [hrooms]; exact ha))
          · intro r2 hr2
            rcases List.mem_append.mp hr2 with hin | hin
            · exact hok r2 (by rw [hrooms]; exact hin)
            · rw [List.mem_singleton.mp hin]
              exact hrok
          · intro habs
            simp at habs
          · intro r0 rest2 hr
            rw [List.cons_append] at hr
            injection hr with hr0 _
            cases hr0
            refine ⟨hold.1, ?_⟩
            show getTile? mh r.center.1 r.center.2 = some Tile.empty
            exact hkeeph _ _ (hkeepv _ _ hkeep1h)

lemma create_map_fold_inv (p0 : Int × Int) (candidates : List RoomCandidate) :
    ∀ st : GenState, gen_inv p0 st → (∀ c ∈ candidates, candidate_ok c) →
      ∃ st2, candidates.foldlM create_map_step st = some st2 ∧ gen_inv p0 st2 := by
  induction candidates with
  | nil =>
      intro st hinv _
      exact ⟨st, by rw [List.foldlM_nil]; rfl, hinv⟩
  | cons c rest ih =>
      intro st hinv hall
      obtain ⟨st1, hst1, hinv1⟩ := create_map_step_inv p0 st c hinv (hall c (by simp))
      obtain ⟨st2, hst2, hinv2⟩ := ih st1 hinv1 (fun c2 hc2 => hall c2 (by simp [hc2]))
      refine ⟨st2, ?_, hinv2⟩
      rw [List.foldlM_cons, hst1]
      exact hst2

lemma gen_inv_init (p0 : Int × Int) :
    gen_inv p0
      { map := initial_map
        rooms := []
        player_pos := p0 } := by
  refine ⟨initial_map_dims, ?_, ?_, ?_, ?_⟩
  · show disjoint_rooms []
    unfold disjoint_rooms
    simp
  · intro r hr
    simp at hr
  · intro _
    exact ⟨rfl, rfl⟩
  · intro r0 rest hr
    simp at hr

/-- **C9.** For every run of the generator whose candidate draws are in the
configured bounds, generation succeeds (no indexing panic) and: a candidate is
accepted only if its rectangle does not intersect (inclusive bounds) any
previously accepted room, so the accepted rooms are pairwise non-intersecting;
if no room is accepted the player never moves; and the player ends at the
center of the first accepted room, a position strictly inside that rectangle,
whose tile in the final map is carved empty (unblocked). -/
theorem create_map_spec (candidates : List RoomCandidate) (p0 : Int × Int)
    (hok : ∀ c ∈ candidates, candidate_ok c) :
    ∃ st, create_map candidates p0 = some st ∧
      List.Pairwise (fun a b => a.intersects_with b = false) st.rooms ∧
      (st.rooms = [] → st.player_pos = p0) ∧
      ∀ r0 rest, st.rooms = r0 :: rest →
        st.player_pos = r0.center ∧
        (r0.x1 < r0.center.1 ∧ r0.center.1 < r0.x2 ∧
          r0.y1 < r0.center.2 ∧ r0.center.2 < r0.y2) ∧
        getTile? st.map r0.center.1 r0.center.2 = some Tile.empty := by
  obtain ⟨st, hst, hinv⟩ := create_map_fold_inv p0 candidates _ (gen_inv_init p0) hok
  obtain ⟨hdim, hdisj, hrok, hemp, hhead⟩ := hinv
  refine ⟨st, hst, hdisj, fun h => (hemp h).2, ?_⟩
  intro r0 rest hr
  obtain ⟨hp, ht⟩ := hhead r0 rest hr
  have hro : room_ok r0 := hrok r0 (by rw [hr]; simp)
  have hb := center_bounds r0 hro
  refine ⟨hp, by unfold room_ok at hro; omega, ht⟩

/-- Witness for C9: two in-bounds candidates. -/
theorem create_map_spec_witness :
    (∀ c ∈ [RoomCandidate.mk 4 4 2 2 true, RoomCandidate.mk 4 4 20 20 false],
      candidate_ok c) ∧
    (∃ st, create_map [RoomCandidate.mk 4 4 2 2 true, RoomCandidate.mk 4 4 20 20 false]
          (0, 0) = some st ∧
      List.Pairwise (fun a b => a.intersects_with b = false) st.rooms ∧
      (st.rooms = [] → st.player_pos = (0, 0)) ∧
      ∀ r0 rest, st.rooms = r0 :: rest →
        st.player_pos = r0.center ∧
        (r0.x1 < r0.center.1 ∧ r0.center.1 < r0.x2 ∧
          r0.y1 < r0.center.2 ∧ r0.center.2 < r0.y2) ∧
        getTile? st.map r0.center.1 r0.center.2 = some Tile.empty) :=
  ⟨by decide, create_map_spec _ _ (by decide)⟩


end RustyRogues
